import Mathlib

/-!
Verification of the command-execution subsystem of the Virtuoso API CLI
facade (`src/api/app/services/cli_executor.py`).

The Python service is embedded shallowly:

* pure helpers (`parse_command`, `validate_command`, `build_command_args`,
  `_parse_output`, `_get_error_message`) become Lean functions;
* the interaction of `execute` with the spawned subprocess is made explicit
  by a `ProcBehavior` value describing what the subprocess does (completes
  with an exit code and output, never finishes within the timeout, or makes
  the surrounding call raise some other exception);
* Python exceptions become an `Except` layer (`ExecErr` mirrors the
  `CommandError` hierarchy);
* Python `str` truthiness on optional strings is modelled by `optTruthy`;
* wall-clock durations (float seconds) are outside the model: the
  `duration` field of `CommandResult` is omitted, and timeouts are carried
  as natural numbers of seconds.
-/

/-! ## Python-flavoured string helpers -/

/-- ASCII whitespace stripped by Python `str.strip()` (the model restricts
itself to the ASCII range; the repository's commands are ASCII). -/
def pyIsSpace (c : Char) : Bool :=
  c = ' ' || c = '\t' || c = '\n' || c = '\r' || c = '\x0b' || c = '\x0c'

/-- Python `s.strip()` restricted to ASCII whitespace. -/
def pyStrip (s : String) : String :=
  String.mk (((s.data.dropWhile pyIsSpace).reverse.dropWhile pyIsSpace).reverse)

/-- Python truthiness of an `Optional[str]`: `None` and `""` are falsy. -/
def optTruthy : Option String → Bool
  | none => false
  | some s => s ≠ ""

/-- Python `str.isdigit` for ASCII digit strings: non-empty and all digits. -/
def isdigitPy (s : String) : Bool :=
  s ≠ "" && s.data.all Char.isDigit

/-- `sub` occurs somewhere inside `s`. -/
def strContains (s sub : String) : Prop :=
  ∃ a b, s = a ++ sub ++ b

/-! ## Output formats and results (`OutputFormat`, `CommandResult`,
`CommandContext` from the source) -/

/-- `OutputFormat` enum from the source. -/
inductive OutputFormat where
  | json
  | yaml
  | human
  | ai
  | raw
deriving DecidableEq

/-- `OutputFormat.value` (the string value of each enum member). -/
def OutputFormat.value : OutputFormat → String
  | .json => "json"
  | .yaml => "yaml"
  | .human => "human"
  | .ai => "ai"
  | .raw => "raw"

/-- Generic JSON-like values: the model of what `json.loads` /
`yaml.safe_load` produce and `_parse_output` returns
(`Union[Dict, List, str]` plus `None`/`bool`/`int` leaves).  Python floats
are outside the model. -/
inductive Jv where
  | null
  | bool (b : Bool)
  | int (n : Int)
  | str (s : String)
  | arr (xs : List Jv)
  | obj (kvs : List (String × Jv))

/-- `CommandContext` dataclass from the source (`timeout` is modelled in
whole seconds; the float value only selects the subprocess wait budget). -/
structure CommandContext where
  request_id : String
  session_id : Option String := none
  timeout : Option Nat := none
  environment : List (String × String) := []
  working_dir : Option String := none
  stream_output : Bool := false
deriving DecidableEq

/-- `CommandResult` dataclass from the source.  The wall-clock `duration`
field is omitted (real time is outside the model). -/
structure CommandResult where
  success : Bool
  exit_code : Int
  stdout : String
  stderr : String
  command : List String
  output_format : OutputFormat
  parsed_output : Option Jv := none
  error : Option String := none

/-- The `CommandError` exception hierarchy, restricted to the members the
executor can actually raise out of `execute`'s `try` block:
`CommandValidationError`, `CommandTimeoutError`, and any other exception
(`shlex` `ValueError`, spawn failures, ...). -/
inductive ExecErr where
  | validation (msg : String)
  | timeoutErr (msg : String)
  | other (msg : String)
deriving DecidableEq

/-- `str(e)` of a modelled exception. -/
def ExecErr.msg : ExecErr → String
  | .validation m => m
  | .timeoutErr m => m
  | .other m => m

/-! ## Exit-code table and error mapper -/

/-- `CLIExecutor.EXIT_CODES` from the source, verbatim. -/
def EXIT_CODES : List (Int × String) :=
  [(0, "Success"),
   (1, "General error"),
   (2, "Command line parsing error"),
   (3, "Authentication error"),
   (4, "Configuration error"),
   (5, "Resource not found"),
   (6, "Validation error"),
   (7, "API error"),
   (8, "Timeout error"),
   (9, "Permission denied"),
   (127, "Command not found")]

/-- `CLIExecutor._get_error_message`: look the exit code up in the table
(default `"Unknown error (code: {exit_code})"`) and append the stripped
stderr when it is non-empty. -/
def get_error_message (exit_code : Int) (stderr : String) : String :=
  let base_msg := (EXIT_CODES.lookup exit_code).getD
    ("Unknown error (code: " ++ toString exit_code ++ ")")
  if pyStrip stderr ≠ "" then base_msg ++ ": " ++ pyStrip stderr else base_msg

/-! ## Shell-word splitting (`shlex.split`, POSIX mode)

`parse_command` tokenizes with `shlex.split`, i.e. a POSIX lexer with
`whitespace_split=True`: whitespace (` \t\r\n`) separates tokens, single
quotes are literal, double quotes allow `\"` and `\\` escapes, and a bare
backslash escapes the next character.  An unterminated quote or trailing
escape raises `ValueError`, modelled as `Except.error`. -/

/-- The double-quote character. -/
def dq : Char := '"'

/-- The backslash character. -/
def bsl : Char := '\\'

/-- The single-quote character (written by code point to keep the source
free of stray quote characters). -/
def sqc : Char := Char.ofNat 39

/-- The single-quote character as a one-character string. -/
def sqs : String := String.mk [sqc]

/-- `shlex.whitespace`: the POSIX lexer's token separators. -/
def shlexIsSpace (c : Char) : Bool :=
  c = ' ' || c = '\t' || c = '\r' || c = '\n'

/-- Lexer modes: between tokens, inside a word, inside single/double
quotes, after an escape character (outside or inside double quotes). -/
inductive ShMode where
  | ws
  | word
  | squote
  | dquote
  | escWord
  | escDquote
deriving DecidableEq

/-- One pass of the POSIX lexer.  `tok` is the current token accumulated in
reverse; `acc` the emitted tokens in reverse. -/
def shlexCore : List Char → ShMode → List Char → List String → Except String (List String)
  | [], .ws, _, acc => .ok acc.reverse
  | [], .word, tok, acc => .ok ((String.mk tok.reverse) :: acc).reverse
  | [], .squote, _, _ => .error "No closing quotation"
  | [], .dquote, _, _ => .error "No closing quotation"
  | [], .escWord, _, _ => .error "No escaped character"
  | [], .escDquote, _, _ => .error "No escaped character"
  | c :: cs, .ws, _, acc =>
    if shlexIsSpace c then shlexCore cs .ws [] acc
    else if c = sqc then shlexCore cs .squote [] acc
    else if c = dq then shlexCore cs .dquote [] acc
    else if c = bsl then shlexCore cs .escWord [] acc
    else shlexCore cs .word [c] acc
  | c :: cs, .word, tok, acc =>
    if shlexIsSpace c then shlexCore cs .ws [] ((String.mk tok.reverse) :: acc)
    else if c = sqc then shlexCore cs .squote tok acc
    else if c = dq then shlexCore cs .dquote tok acc
    else if c = bsl then shlexCore cs .escWord tok acc
    else shlexCore cs .word (c :: tok) acc
  | c :: cs, .squote, tok, acc =>
    if c = sqc then shlexCore cs .word tok acc
    else shlexCore cs .squote (c :: tok) acc
  | c :: cs, .dquote, tok, acc =>
    if c = dq then shlexCore cs .word tok acc
    else if c = bsl then shlexCore cs .escDquote tok acc
    else shlexCore cs .dquote (c :: tok) acc
  | c :: cs, .escWord, tok, _acc => shlexCore cs .word (c :: tok) _acc
  | c :: cs, .escDquote, tok, acc =>
    if c = dq || c = bsl then shlexCore cs .dquote (c :: tok) acc
    else shlexCore cs .dquote (c :: bsl :: tok) acc

/-- `shlex.split(s)` (POSIX, `whitespace_split=True`, comments off). -/
def shlexSplit (s : String) : Except String (List String) :=
  shlexCore s.data .ws [] []

/-! ## Command parsing and validation -/

/-- `CLIExecutor.CHECKPOINT_COMMANDS` from the source, verbatim. -/
def CHECKPOINT_COMMANDS : List String :=
  ["step-assert", "step-interact", "step-navigate", "step-window",
   "step-data", "step-dialog", "step-wait", "step-file", "step-misc",
   "library"]

/-- The result quadruple of `parse_command`:
`(command, subcommand, checkpoint_id, args)`. -/
abbrev ParsedCommand := String × Option String × Option String × List String

/-- The `api-cli ` prefix removal step of `parse_command`
(`command[8:]` when the string starts with the CLI name). -/
def dropCliName (command : String) : String :=
  if "api-cli ".data.isPrefixOf command.data then String.mk (command.data.drop 8)
  else command

/-- The token-dispatch part of `CLIExecutor.parse_command`: split the
token list into command, subcommand, checkpoint id and positional args
(`parts[0]`, `parts[1]`, a numeric `parts[2]`, the rest). -/
def parse_dispatch : List String → Except ExecErr ParsedCommand
  | [] => .error (.validation "No command specified")
  | cmd :: rest =>
    if rest.length > 0 then
      if CHECKPOINT_COMMANDS.contains cmd then
        match rest with
        | p1 :: p2 :: restArgs =>
          if isdigitPy p2 then .ok (cmd, some p1, some p2, restArgs)
          else .ok (cmd, some p1, none, p2 :: restArgs)
        | [p1] => .ok (cmd, some p1, none, [])
        | [] => .ok (cmd, none, none, [])
      else .ok (cmd, none, none, rest)
    else .ok (cmd, none, none, [])

/-- `CLIExecutor.parse_command`: strip, drop a leading `api-cli ` prefix,
tokenize with `shlex.split`, then dispatch on the tokens. -/
def parse_command (command : String) : Except ExecErr ParsedCommand :=
  if pyStrip command = "" then .error (.validation "Empty command")
  else
    match shlexSplit (dropCliName (pyStrip command)) with
    | .error e => .error (.other e)
    | .ok parts => parse_dispatch parts

/-- The message of the checkpoint-ID validation error, verbatim from the
source (`f"Command '{command}' requires checkpoint ID. ..."`). -/
def requiresCheckpointMsg (command : String) : String :=
  "Command " ++ sqs ++ command ++ sqs ++
    " requires checkpoint ID. Provide it explicitly or set VIRTUOSO_SESSION_ID"

/-- `CLIExecutor.validate_command`: for checkpoint-scoped commands, resolve
the checkpoint id from the explicit argument or, when that is falsy and a
context is present, from the context's session id; fail unless something
truthy was resolved or the command is `library`. -/
def validate_command (command : String) (_subcommand : Option String)
    (checkpoint_id : Option String) (context : Option CommandContext) :
    Except ExecErr Unit :=
  if CHECKPOINT_COMMANDS.contains command then
    let checkpoint_id :=
      if !optTruthy checkpoint_id then
        match context with
        | some ctx => ctx.session_id
        | none => checkpoint_id
      else checkpoint_id
    if !optTruthy checkpoint_id && command ≠ "library" then
      .error (.validation (requiresCheckpointMsg command))
    else .ok ()
  else .ok ()

/-- `CLIExecutor.build_command_args`: `[cli_path, command]`, then the
subcommand and checkpoint id when truthy, the positional args, and
`["--output", fmt]` unless the format is RAW. -/
def build_command_args (cli_path : String) (command : String)
    (subcommand checkpoint_id : Option String) (args : List String)
    (output_format : OutputFormat) : List String :=
  [cli_path, command]
    ++ (if optTruthy subcommand then [subcommand.getD ""] else [])
    ++ (if optTruthy checkpoint_id then [checkpoint_id.getD ""] else [])
    ++ args
    ++ (if output_format ≠ OutputFormat.raw then ["--output", output_format.value] else [])

/-! ## Output parsing

`CLIExecutor._parse_output` is parameterised by the two external decoders
(`json.loads`, `yaml.safe_load`); a decoder returning `none` models a
decode exception.  A concrete model of `json.loads` is given later for the
round-trip property. -/

/-- `CLIExecutor._parse_output`: `None` for whitespace-only output, the
decoded value under JSON/YAML when the decoder succeeds, and the raw
string unchanged otherwise (decode failure or any other format). -/
def parse_output (jsonLoadsFn yamlLoadFn : String → Option Jv)
    (output : String) (format_type : OutputFormat) : Option Jv :=
  if pyStrip output = "" then none
  else
    match format_type with
    | .json =>
      match jsonLoadsFn output with
      | some v => some v
      | none => some (.str output)
    | .yaml =>
      match yamlLoadFn output with
      | some v => some v
      | none => some (.str output)
    | _ => some (.str output)

/-! ## Synchronous execution (`CLIExecutor.execute`)

The subprocess spawned by `execute` is abstracted by a `ProcBehavior`;
everything around it (parsing, validation, argv building, result and
exception shaping) follows the source.  The outcome records, besides the
returned result or raised exception, whether the spawn point was reached
and whether the process was killed. -/

/-- What the spawned subprocess does on one invocation. -/
inductive ProcBehavior where
  | completes (exit_code : Int) (stdout stderr : String)
  | hangs
  | raises (msg : String)
deriving DecidableEq

/-- Outcome of one `execute` call: the returned `CommandResult` or raised
exception, whether `subprocess.Popen` was reached, and whether
`process.kill()` ran. -/
structure ExecOutcome where
  result : Except ExecErr CommandResult
  spawned : Bool
  killed : Bool

/-- The `CommandResult` built by the `except Exception` branches (of both
`execute` and `execute_batch`): `exit_code = -1`, `stderr` and `error`
both `str(e)`, `command = [command]` (the raw string). -/
def internalErrorResult (command : String) (output_format : OutputFormat)
    (msg : String) : CommandResult :=
  { success := false, exit_code := -1, stdout := "", stderr := msg,
    command := [command], output_format := output_format,
    parsed_output := none, error := some msg }

/-- `context.timeout or self.default_timeout` (Python `or`: `None` and `0`
are falsy). -/
def selectTimeout (context : Option CommandContext) (default_timeout : Nat) : Nat :=
  match context with
  | some ctx =>
    match ctx.timeout with
    | some t => if t = 0 then default_timeout else t
    | none => default_timeout
  | none => default_timeout

/-- The `CommandTimeoutError` message
(`f"Command timed out after {timeout} seconds"`; the model prints the
timeout as a natural number where Python prints a float). -/
def timeoutMessage (timeout : Nat) : String :=
  "Command timed out after " ++ toString timeout ++ " seconds"

/-- `CLIExecutor.execute`.  `context = context or CommandContext("sync")`;
parse and validate inside the `try`; on the happy path build argv, run the
subprocess, parse stdout and shape the result; `CommandTimeoutError` is
re-raised; every other exception becomes a `CommandResult` with
`exit_code = -1`. -/
def execute (jsonLoadsFn yamlLoadFn : String → Option Jv)
    (cli_path : String) (default_timeout : Nat) (command : String)
    (context : Option CommandContext) (output_format : OutputFormat)
    (beh : ProcBehavior) : ExecOutcome :=
  let context := context.getD { request_id := "sync" }
  match parse_command command with
  | .error e =>
    { result := .ok (internalErrorResult command output_format e.msg),
      spawned := false, killed := false }
  | .ok (cmd, subcmd, checkpoint_id, args) =>
    match validate_command cmd subcmd checkpoint_id (some context) with
    | .error e =>
      { result := .ok (internalErrorResult command output_format e.msg),
        spawned := false, killed := false }
    | .ok _ =>
      let cmd_args := build_command_args cli_path cmd subcmd checkpoint_id args output_format
      let timeout := selectTimeout (some context) default_timeout
      match beh with
      | .hangs =>
        { result := .error (.timeoutErr (timeoutMessage timeout)),
          spawned := true, killed := true }
      | .raises m =>
        { result := .ok (internalErrorResult command output_format m),
          spawned := true, killed := false }
      | .completes ec out err =>
        let parsed :=
          if out ≠ "" && output_format ≠ OutputFormat.raw then
            parse_output jsonLoadsFn yamlLoadFn out output_format
          else none
        let succ : Bool := ec = 0
        { result := .ok
            { success := succ, exit_code := ec, stdout := out, stderr := err,
              command := cmd_args, output_format := output_format,
              parsed_output := parsed,
              error := if succ then none else some (get_error_message ec err) },
          spawned := true, killed := false }

/-! ## Batch execution (`CLIExecutor.execute_batch`)

Each command is submitted to the worker pool (each future runs `execute`
on its own subprocess behaviour) and the results are collected in
submission order.  For each item, the batch's `future.result(timeout=
default_timeout)` wait either obtains the future's outcome or raises
`concurrent.futures.TimeoutError`; the latter is the `WaitFate.waitTimeout`
case, distinct from the `CommandTimeoutError` the inner `execute` may
raise. -/

/-- Whether `future.result(timeout=default_timeout)` returned before the
batch-side wait timed out. -/
inductive WaitFate where
  | completed
  | waitTimeout
deriving DecidableEq

/-- One iteration of `execute_batch`'s collection loop for the `i`-th item:
the synthetic exit-8 result on a wait timeout, the future's result when it
completed, or the generic-exception conversion when the future's `execute`
raised. -/
def batchItem (jsonLoadsFn yamlLoadFn : String → Option Jv)
    (cli_path : String) (default_timeout : Nat)
    (context : Option CommandContext) (output_format : OutputFormat)
    (cmd : String) (beh : ProcBehavior) (wait : WaitFate) : CommandResult :=
  match wait with
  | .waitTimeout =>
    { success := false, exit_code := 8, stdout := "",
      stderr := "Command timed out", command := [cmd],
      output_format := output_format, parsed_output := none,
      error := some "Timeout" }
  | .completed =>
    match (execute jsonLoadsFn yamlLoadFn cli_path default_timeout cmd
        context output_format beh).result with
    | .ok r => r
    | .error e => internalErrorResult cmd output_format e.msg

/-- `CLIExecutor.execute_batch` over a list of commands, each with its own
subprocess behaviour and wait fate; context and output format are shared. -/
def execute_batch (jsonLoadsFn yamlLoadFn : String → Option Jv)
    (cli_path : String) (default_timeout : Nat)
    (items : List (String × ProcBehavior × WaitFate))
    (context : Option CommandContext) (output_format : OutputFormat) :
    List CommandResult :=
  items.map fun it =>
    batchItem jsonLoadsFn yamlLoadFn cli_path default_timeout context
      output_format it.1 it.2.1 it.2.2

/-! ## Spec-side description of the parser dispatch

For the refinement claim about `parse_command`, a second definition of the
token dispatch is written from the specification's words, to be compared
with `parse_dispatch` (which is translated from the source). -/

/-- Spec-side dispatch: if the first token is checkpoint-scoped, the
second token (if present) is the subcommand and a purely numeric third
token is consumed as checkpoint id, all remaining tokens being positional
args; otherwise every token after the first is a positional arg. -/
def parse_command_spec : List String → ParsedCommand
  | [] => ("", none, none, [])
  | cmd :: rest =>
    if CHECKPOINT_COMMANDS.contains cmd then
      match rest with
      | [] => (cmd, none, none, [])
      | sub :: rest2 =>
        match rest2 with
        | [] => (cmd, some sub, none, [])
        | third :: rest3 =>
          if isdigitPy third then (cmd, some sub, some third, rest3)
          else (cmd, some sub, none, third :: rest3)
    else (cmd, none, none, rest)

/-! ## A model of `json.dumps` / `json.loads`

`_parse_output` delegates JSON decoding to the standard library.  For the
round-trip property a concrete model of `json.dumps` (default options:
`ensure_ascii=True`, separators `", "` and `": "`) and of `json.loads`
(strict mode) is given, covering every JSON value the executor's dicts can
contain except floats (float formatting/parsing is floating-point
behaviour, outside the model; `jsonLoads` fails on a lone surrogate
escape, which no Lean `Char` can denote and no `dumps` output contains). -/

/-- The opening-bracket character. -/
def lbrackC : Char := '['

/-- The closing-bracket character. -/
def rbrackC : Char := ']'

/-- The opening-brace character (by code point). -/
def lbraceC : Char := Char.ofNat 123

/-- The closing-brace character (by code point). -/
def rbraceC : Char := Char.ofNat 125

/-- JSON whitespace (`json.decoder.WHITESPACE`). -/
def jsonWsChar (c : Char) : Bool :=
  c = ' ' || c = '\t' || c = '\n' || c = '\r'

/-- Skip JSON whitespace. -/
def skipWs (cs : List Char) : List Char :=
  cs.dropWhile jsonWsChar

/-- Four-digit lowercase hex rendering of `n < 0x10000`
(Python `'\\u%04x'`). -/
def hex4 (n : Nat) : List Char :=
  [Nat.digitChar (n / 4096 % 16), Nat.digitChar (n / 256 % 16),
   Nat.digitChar (n / 16 % 16), Nat.digitChar (n % 16)]

/-- `json.dumps` escaping of one character (`ensure_ascii=True`): named
escapes for `\"`, `\\` and the five control shorts, `\NNNN` hex escapes
for every other character outside `0x20`–`0x7e`, surrogate pairs above
`0xffff`. -/
def escChar (c : Char) : List Char :=
  if c = dq then [bsl, dq]
  else if c = bsl then [bsl, bsl]
  else if c = '\x08' then [bsl, 'b']
  else if c = '\x0c' then [bsl, 'f']
  else if c = '\n' then [bsl, 'n']
  else if c = '\r' then [bsl, 'r']
  else if c = '\t' then [bsl, 't']
  else if c.toNat < 0x20 || c.toNat ≥ 0x7f then
    if c.toNat < 0x10000 then bsl :: 'u' :: hex4 c.toNat
    else
      (bsl :: 'u' :: hex4 (0xd800 + (c.toNat - 0x10000) / 0x400)) ++
        (bsl :: 'u' :: hex4 (0xdc00 + (c.toNat - 0x10000) % 0x400))
  else [c]

/-- Escape a character list. -/
def escList : List Char → List Char
  | [] => []
  | c :: cs => escChar c ++ escList cs

/-- A JSON string literal: quote, escaped body, quote. -/
def strLitChars (s : String) : List Char :=
  dq :: escList s.data ++ [dq]

/-- Decimal digits of a natural number (Python `repr`). -/
def natChars (n : Nat) : List Char :=
  if n = 0 then ['0'] else ((Nat.digits 10 n).map Nat.digitChar).reverse

/-- Decimal rendering of an integer (Python `repr`). -/
def intChars (n : Int) : List Char :=
  if n < 0 then '-' :: natChars n.natAbs else natChars n.toNat

/-- The keyword `null` as characters. -/
def nullChars : List Char := ['n', 'u', 'l', 'l']

/-- The keyword `true` as characters. -/
def trueChars : List Char := ['t', 'r', 'u', 'e']

/-- The keyword `false` as characters. -/
def falseChars : List Char := ['f', 'a', 'l', 's', 'e']

mutual

/-- `json.dumps` (default separators `", "` / `": "`) as a character
list. -/
def dumpChars : Jv → List Char
  | .null => nullChars
  | .bool true => trueChars
  | .bool false => falseChars
  | .int n => intChars n
  | .str s => strLitChars s
  | .arr [] => [lbrackC, rbrackC]
  | .arr (x :: xs) => lbrackC :: (dumpChars x ++ dumpArrRest xs) ++ [rbrackC]
  | .obj [] => [lbraceC, rbraceC]
  | .obj (kv :: kvs) => lbraceC :: (dumpEntryChars kv ++ dumpObjRest kvs) ++ [rbraceC]

/-- The `", "`-separated tail of a dumped array. -/
def dumpArrRest : List Jv → List Char
  | [] => []
  | x :: xs => ',' :: ' ' :: (dumpChars x ++ dumpArrRest xs)

/-- One dumped object entry, `"key": value`. -/
def dumpEntryChars : String × Jv → List Char
  | (k, v) => strLitChars k ++ ':' :: ' ' :: dumpChars v

/-- The `", "`-separated tail of a dumped object. -/
def dumpObjRest : List (String × Jv) → List Char
  | [] => []
  | kv :: kvs => ',' :: ' ' :: (dumpEntryChars kv ++ dumpObjRest kvs)

end

/-- `json.dumps` as a string. -/
def dumps (v : Jv) : String :=
  String.mk (dumpChars v)

/-- Hex digit value of a character (`int(c, 16)` acceptance). -/
def hexVal (c : Char) : Option Nat :=
  if '0' ≤ c ∧ c ≤ '9' then some (c.toNat - 48)
  else if 'a' ≤ c ∧ c ≤ 'f' then some (c.toNat - 87)
  else if 'A' ≤ c ∧ c ≤ 'F' then some (c.toNat - 55)
  else none

/-- Value of an ASCII digit. -/
def digitVal (c : Char) : Nat := c.toNat - 48

/-- Greedily read decimal digits, extending the accumulator. -/
def parseDigitsAux (acc : Nat) : List Char → Nat × List Char
  | c :: cs =>
    if c.isDigit then parseDigitsAux (acc * 10 + digitVal c) cs else (acc, c :: cs)
  | [] => (acc, [])

/-- Parse a JSON integer (`NUMBER_RE`'s integer part: optional minus, then
`0` or a nonzero-led digit run; a float continuation is outside the model
and is left unconsumed). -/
def parseNumberInt : List Char → Option (Int × List Char)
  | c :: cs =>
    if c = '-' then
      match cs with
      | d :: cs2 =>
        if d = '0' then some (0, cs2)
        else if d.isDigit then
          match parseDigitsAux (digitVal d) cs2 with
          | (n, rest) => some (-(n : Int), rest)
        else none
      | [] => none
    else if c = '0' then some (0, cs)
    else if c.isDigit then
      match parseDigitsAux (digitVal c) cs with
      | (n, rest) => some ((n : Int), rest)
    else none
  | [] => none

/-- Read four hex digits (`\uXXXX`'s payload). -/
def readHex4 : List Char → Option (Nat × List Char)
  | h1 :: h2 :: h3 :: h4 :: rest =>
    match hexVal h1, hexVal h2, hexVal h3, hexVal h4 with
    | some v1, some v2, some v3, some v4 =>
      some (((v1 * 16 + v2) * 16 + v3) * 16 + v4, rest)
    | _, _, _, _ => none
  | _ => none

/-- Decode a `\uXXXX` escape after the `\u`: a high surrogate must be
followed by a `\uXXXX` low surrogate (the pair is combined, as in
`json.decoder`); a lone surrogate is unrepresentable in `Char` and
rejected by the model. -/
def parseUEscape (cs : List Char) : Option (Char × List Char) :=
  match readHex4 cs with
  | none => none
  | some (n, cs3) =>
    if 0xd800 ≤ n ∧ n ≤ 0xdbff then
      match cs3 with
      | e2 :: u2 :: cs4 =>
        if e2 = bsl ∧ u2 = 'u' then
          match readHex4 cs4 with
          | some (m, cs5) =>
            if 0xdc00 ≤ m ∧ m ≤ 0xdfff then
              some (Char.ofNat (0x10000 + (n - 0xd800) * 0x400 + (m - 0xdc00)), cs5)
            else none
          | none => none
        else none
      | _ => none
    else if 0xdc00 ≤ n ∧ n ≤ 0xdfff then none
    else some (Char.ofNat n, cs3)

/-- Parse the body of a JSON string after the opening quote (strict mode:
raw control characters are rejected).  The fuel only bounds the recursion;
each step consumes at least one character, so `input length + 1` is always
enough. -/
def parseStrBody : Nat → List Char → List Char → Option (String × List Char)
  | 0, _, _ => none
  | fuel + 1, acc, cs =>
    match cs with
    | [] => none
    | c :: cs1 =>
      if c = dq then some (String.mk acc.reverse, cs1)
      else if c = bsl then
        match cs1 with
        | [] => none
        | e :: cs2 =>
          if e = dq then parseStrBody fuel (dq :: acc) cs2
          else if e = bsl then parseStrBody fuel (bsl :: acc) cs2
          else if e = '/' then parseStrBody fuel ('/' :: acc) cs2
          else if e = 'b' then parseStrBody fuel ('\x08' :: acc) cs2
          else if e = 'f' then parseStrBody fuel ('\x0c' :: acc) cs2
          else if e = 'n' then parseStrBody fuel ('\n' :: acc) cs2
          else if e = 'r' then parseStrBody fuel ('\r' :: acc) cs2
          else if e = 't' then parseStrBody fuel ('\t' :: acc) cs2
          else if e = 'u' then
            match parseUEscape cs2 with
            | some (ch, cs5) => parseStrBody fuel (ch :: acc) cs5
            | none => none
          else none
      else if c.toNat < 0x20 then none
      else parseStrBody fuel (c :: acc) cs1

mutual

/-- Fuelled recursive-descent JSON value parser (`json.scanner.scan_once`
with surrounding whitespace skipping). -/
def parseValue : Nat → List Char → Option (Jv × List Char)
  | 0, _ => none
  | fuel + 1, cs =>
    match skipWs cs with
    | c :: cs1 =>
      if c = 'n' then
        match cs1 with
        | 'u' :: 'l' :: 'l' :: rest => some (.null, rest)
        | _ => none
      else if c = 't' then
        match cs1 with
        | 'r' :: 'u' :: 'e' :: rest => some (.bool true, rest)
        | _ => none
      else if c = 'f' then
        match cs1 with
        | 'a' :: 'l' :: 's' :: 'e' :: rest => some (.bool false, rest)
        | _ => none
      else if c = dq then
        match parseStrBody (cs1.length + 1) [] cs1 with
        | some (s, rest) => some (.str s, rest)
        | none => none
      else if c = lbrackC then
        match skipWs cs1 with
        | c2 :: cs2 =>
          if c2 = rbrackC then some (.arr [], cs2)
          else
            match parseArrItems fuel (c2 :: cs2) with
            | some (xs, rest) => some (.arr xs, rest)
            | none => none
        | [] => none
      else if c = lbraceC then
        match skipWs cs1 with
        | c2 :: cs2 =>
          if c2 = rbraceC then some (.obj [], cs2)
          else
            match parseObjItems fuel (c2 :: cs2) with
            | some (kvs, rest) => some (.obj kvs, rest)
            | none => none
        | [] => none
      else if c = '-' || c.isDigit then
        match parseNumberInt (c :: cs1) with
        | some (n, rest) => some (.int n, rest)
        | none => none
      else none
    | [] => none

/-- Non-empty array items: value, then `]` to stop or `,` to continue. -/
def parseArrItems : Nat → List Char → Option (List Jv × List Char)
  | 0, _ => none
  | fuel + 1, cs =>
    match parseValue fuel cs with
    | none => none
    | some (v, rest) =>
      match skipWs rest with
      | c :: rest2 =>
        if c = rbrackC then some ([v], rest2)
        else if c = ',' then
          match parseArrItems fuel rest2 with
          | some (vs, rest3) => some (v :: vs, rest3)
          | none => none
        else none
      | [] => none

/-- Non-empty object entries: `"key"`, `:`, value, then `}` to stop or `,`
to continue. -/
def parseObjItems : Nat → List Char → Option (List (String × Jv) × List Char)
  | 0, _ => none
  | fuel + 1, cs =>
    match skipWs cs with
    | c :: cs1 =>
      if c = dq then
        match parseStrBody (cs1.length + 1) [] cs1 with
        | some (k, rest) =>
          match skipWs rest with
          | c2 :: rest2 =>
            if c2 = ':' then
              match parseValue fuel rest2 with
              | some (v, rest3) =>
                match skipWs rest3 with
                | c3 :: rest4 =>
                  if c3 = rbraceC then some ([(k, v)], rest4)
                  else if c3 = ',' then
                    match parseObjItems fuel rest4 with
                    | some (kvs, rest5) => some ((k, v) :: kvs, rest5)
                    | none => none
                  else none
                | [] => none
              | none => none
            else none
          | [] => none
        | none => none
      else none
    | [] => none

end

/-- The continuation after a dumped number may not begin with a digit
(the parser reads digits greedily). -/
def notDigitHead : List Char → Prop
  | [] => True
  | c :: _ => c.isDigit = false

/-- `json.loads`: parse one value (with enough fuel for any input of this
length), skip trailing whitespace and require the end of the input. -/
def jsonLoads (s : String) : Option Jv :=
  match parseValue (s.data.length + 1) s.data with
  | some (v, rest) => if skipWs rest = [] then some v else none
  | none => none

/-- The default context `execute` substitutes for `None`
(`CommandContext(request_id="sync")`). -/
def defaultCtx : CommandContext := { request_id := "sync" }

/-- Whether `execute` on this command and context reaches the spawn point:
the command parses and validates. -/
def happyPath (cmd : String) (ctx : Option CommandContext) : Bool :=
  match parse_command cmd with
  | .error _ => false
  | .ok pc =>
    (validate_command pc.1 pc.2.1 pc.2.2.1 (some (ctx.getD defaultCtx))).isOk

/-! ## Helper lemmas -/

theorem pyStrip_empty : pyStrip "" = "" := rfl

theorem requiresCheckpointMsg_split (cmd : String) :
    requiresCheckpointMsg cmd =
      ("Command " ++ sqs ++ cmd ++ sqs ++ " ") ++ "requires checkpoint ID" ++
        ". Provide it explicitly or set VIRTUOSO_SESSION_ID" := by
  have h : (" requires checkpoint ID. Provide it explicitly or set VIRTUOSO_SESSION_ID" : String)
      = " " ++ "requires checkpoint ID" ++ ". Provide it explicitly or set VIRTUOSO_SESSION_ID" := by
    decide
  simp only [requiresCheckpointMsg, h, String.append_assoc]

theorem requiresCheckpointMsg_contains (cmd : String) :
    strContains (requiresCheckpointMsg cmd) "requires checkpoint ID" :=
  ⟨"Command " ++ sqs ++ cmd ++ sqs ++ " ",
   ". Provide it explicitly or set VIRTUOSO_SESSION_ID",
   requiresCheckpointMsg_split cmd⟩

theorem parse_dispatch_eq_spec (parts : List String) (h : parts ≠ []) :
    parse_dispatch parts = .ok (parse_command_spec parts) := by
  cases parts with
  | nil => exact absurd rfl h
  | cons cmd rest =>
    cases rest with
    | nil =>
      simp only [parse_dispatch, parse_command_spec, List.length_nil]
      norm_num
    | cons p1 rest2 =>
      cases rest2 with
      | nil =>
        simp only [parse_dispatch, parse_command_spec, List.length_cons, List.length_nil]
        norm_num
        split_ifs <;> rfl
      | cons p2 rest3 =>
        simp only [parse_dispatch, parse_command_spec, List.length_cons]
        norm_num
        split_ifs <;> rfl

/-! ## The claims -/

/-- C9: the error mapper returns the category from the fixed exit-code
table, synthesizes `Unknown error (code: {exit_code})` for absent codes,
appends `": "` plus the trimmed stderr exactly when the trimmed stderr is
non-empty, and in particular maps `(0,"")`, `(5,"")`, `(5,"x not found")`
and `(42,"")` to the four quoted messages. -/
theorem claim_C9 :
    (∀ ec msg, EXIT_CODES.lookup ec = some msg → get_error_message ec "" = msg) ∧
    (∀ ec : Int, EXIT_CODES.lookup ec = none →
      get_error_message ec "" = "Unknown error (code: " ++ toString ec ++ ")") ∧
    (∀ ec s, pyStrip s ≠ "" →
      get_error_message ec s =
        (EXIT_CODES.lookup ec).getD ("Unknown error (code: " ++ toString ec ++ ")")
          ++ ": " ++ pyStrip s) ∧
    (∀ ec s, pyStrip s = "" →
      get_error_message ec s =
        (EXIT_CODES.lookup ec).getD ("Unknown error (code: " ++ toString ec ++ ")")) ∧
    get_error_message 0 "" = "Success" ∧
    get_error_message 5 "" = "Resource not found" ∧
    get_error_message 5 "x not found" = "Resource not found: x not found" ∧
    get_error_message 42 "" = "Unknown error (code: 42)" := by
  refine ⟨?_, ?_, ?_, ?_, by decide, by decide, by decide, by decide⟩
  · intro ec msg h
    simp [get_error_message, h, pyStrip_empty]
  · intro ec h
    simp [get_error_message, h, pyStrip_empty]
  · intro ec s h
    simp only [get_error_message]
    rw [if_pos h]
  · intro ec s h
    simp only [get_error_message]
    rw [if_neg (by simp [h])]

theorem claim_C9_witness :
    get_error_message 3 "" = "Authentication error" ∧
    get_error_message 77 "" = "Unknown error (code: " ++ toString (77 : Int) ++ ")" ∧
    get_error_message 9 " denied " =
      (EXIT_CODES.lookup 9).getD ("Unknown error (code: " ++ toString (9 : Int) ++ ")")
        ++ ": " ++ pyStrip " denied " ∧
    get_error_message 4 "   " =
      (EXIT_CODES.lookup 4).getD ("Unknown error (code: " ++ toString (4 : Int) ++ ")") :=
  ⟨claim_C9.1 3 "Authentication error" (by decide),
   claim_C9.2.1 77 (by decide),
   claim_C9.2.2.1 9 " denied " (by decide),
   claim_C9.2.2.2.1 4 "   " (by decide)⟩

/-- C4: for checkpoint-scoped commands, `validate_command` raises a
validation error whose message contains `requires checkpoint ID` exactly
when the explicit checkpoint id is falsy, the context (if any) supplies no
truthy session id, and the command is not `library`; commands outside the
set never fail this validation. -/
theorem claim_C4 (cmd : String) (sub cp : Option String) (ctx : Option CommandContext) :
    (CHECKPOINT_COMMANDS.contains cmd = true →
      ((∃ m, validate_command cmd sub cp ctx = .error (.validation m) ∧
          strContains m "requires checkpoint ID") ↔
        (optTruthy cp = false ∧
          (∀ c, ctx = some c → optTruthy c.session_id = false) ∧
          cmd ≠ "library"))) ∧
    (CHECKPOINT_COMMANDS.contains cmd = false →
      validate_command cmd sub cp ctx = .ok ()) := by
  constructor
  · intro hmem
    by_cases hcp : optTruthy cp = true
    · have hv : validate_command cmd sub cp ctx = .ok () := by
        unfold validate_command
        rw [if_pos hmem]
        simp [hcp]
      rw [hv]
      simp [hcp]
    · have hcp' : optTruthy cp = false := by simpa using hcp
      cases ctx with
      | none =>
        by_cases hlib : cmd = "library"
        · have hv : validate_command cmd sub cp none = .ok () := by
            unfold validate_command
            rw [if_pos hmem]
            simp [hcp', hlib]
          rw [hv]
          simp [hlib]
        · have hv : validate_command cmd sub cp none =
              .error (.validation (requiresCheckpointMsg cmd)) := by
            unfold validate_command
            rw [if_pos hmem]
            simp [hcp', hlib]
          rw [hv]
          constructor
          · intro _
            exact ⟨hcp', by rintro c ⟨⟩, hlib⟩
          · intro _
            exact ⟨requiresCheckpointMsg cmd, rfl, requiresCheckpointMsg_contains cmd⟩
      | some c =>
        by_cases hs : optTruthy c.session_id = true
        · have hv : validate_command cmd sub cp (some c) = .ok () := by
            unfold validate_command
            rw [if_pos hmem]
            simp [hcp', hs]
          rw [hv]
          constructor
          · rintro ⟨m, hm, -⟩
            cases hm
          · rintro ⟨-, hses, -⟩
            have := hses c rfl
            rw [hs] at this
            cases this
        · have hs' : optTruthy c.session_id = false := by simpa using hs
          by_cases hlib : cmd = "library"
          · have hv : validate_command cmd sub cp (some c) = .ok () := by
              unfold validate_command
              rw [if_pos hmem]
              simp [hcp', hs', hlib]
            rw [hv]
            simp [hlib]
          · have hv : validate_command cmd sub cp (some c) =
                .error (.validation (requiresCheckpointMsg cmd)) := by
              unfold validate_command
              rw [if_pos hmem]
              simp [hcp', hs', hlib]
            rw [hv]
            constructor
            · intro _
              refine ⟨hcp', ?_, hlib⟩
              rintro c' hc'
              cases hc'
              exact hs'
            · intro _
              exact ⟨requiresCheckpointMsg cmd, rfl, requiresCheckpointMsg_contains cmd⟩
  · intro hmem
    unfold validate_command
    rw [if_neg (by simpa using hmem)]

theorem claim_C4_witness :
    ((∃ m, validate_command "step-interact" (some "click") none none =
        .error (.validation m) ∧ strContains m "requires checkpoint ID") ↔
      (optTruthy none = false ∧
        (∀ c, (none : Option CommandContext) = some c → optTruthy c.session_id = false) ∧
        "step-interact" ≠ "library")) ∧
    validate_command "list-projects" none none none = .ok () :=
  ⟨(claim_C4 "step-interact" (some "click") none none).1 (by decide),
   (claim_C4 "list-projects" none none none).2 (by decide)⟩

/-- C2: whenever `parse_command` succeeds, its result is exactly the
spec-side dispatch (`parse_command_spec`) applied to the non-empty token
list produced by shell-word splitting of the prefix-stripped command; in
particular `step-navigate to 12345 "https://example.com"` parses to
`("step-navigate", "to", "12345", ["https://example.com"])`. -/
theorem claim_C2 :
    (∀ s t, parse_command s = .ok t →
      ∃ parts, shlexSplit (dropCliName (pyStrip s)) = .ok parts ∧
        parts ≠ [] ∧ t = parse_command_spec parts) ∧
    parse_command "step-navigate to 12345 \"https://example.com\"" =
      .ok ("step-navigate", some "to", some "12345", ["https://example.com"]) := by
  constructor
  · intro s t h
    unfold parse_command at h
    by_cases hs : pyStrip s = ""
    · rw [if_pos hs] at h
      cases h
    · rw [if_neg hs] at h
      rcases hsp : shlexSplit (dropCliName (pyStrip s)) with e | parts
      · rw [hsp] at h
        cases h
      · rw [hsp] at h
        dsimp only at h
        have hne : parts ≠ [] := by
          rintro rfl
          cases h
        rw [parse_dispatch_eq_spec parts hne] at h
        injection h with h'
        exact ⟨parts, rfl, hne, h'.symm⟩
  · rfl

theorem claim_C2_witness :
    ∃ parts, shlexSplit (dropCliName (pyStrip "library get")) = .ok parts ∧
      parts ≠ [] ∧
      (("library", some "get", none, []) : ParsedCommand) = parse_command_spec parts :=
  claim_C2.1 "library get" ("library", some "get", none, []) (by rfl)

/-- C7: the output parser never raises: whitespace-only input yields
`none`; under JSON (resp. YAML) format a failing decode returns the
original raw string unchanged; under any other format the raw string is
returned unchanged (for every decoder behaviour). -/
theorem claim_C7 (jl yl : String → Option Jv) (out : String) (fmt : OutputFormat) :
    (pyStrip out = "" → parse_output jl yl out fmt = none) ∧
    (pyStrip out ≠ "" → fmt = .json → jl out = none →
      parse_output jl yl out fmt = some (.str out)) ∧
    (pyStrip out ≠ "" → fmt = .yaml → yl out = none →
      parse_output jl yl out fmt = some (.str out)) ∧
    (pyStrip out ≠ "" → fmt ≠ .json → fmt ≠ .yaml →
      parse_output jl yl out fmt = some (.str out)) := by
  refine ⟨?_, ?_, ?_, ?_⟩
  · intro h
    simp [parse_output, h]
  · rintro h rfl hj
    simp [parse_output, h, hj]
  · rintro h rfl hy
    simp [parse_output, h, hy]
  · intro h hj hy
    cases fmt <;> simp_all [parse_output]

theorem claim_C7_witness :
    parse_output (fun _ => none) (fun _ => none) " \t " .json = none ∧
    parse_output (fun _ => none) (fun _ => none) "not json" .json =
      some (.str "not json") ∧
    parse_output (fun _ => some .null) (fun _ => none) "x: [" .yaml =
      some (.str "x: [") ∧
    parse_output (fun _ => none) (fun _ => none) "plain" .human =
      some (.str "plain") :=
  ⟨(claim_C7 _ _ " \t " .json).1 (by decide),
   (claim_C7 _ _ "not json" .json).2.1 (by decide) rfl rfl,
   (claim_C7 _ _ "x: [" .yaml).2.2.1 (by decide) rfl rfl,
   (claim_C7 _ _ "plain" .human).2.2.2 (by decide) (by decide) (by decide)⟩

/-! ### Invariants of produced results (C1) -/

theorem resultInvariant_internal (cmd : String) (fmt : OutputFormat) (m : String) :
    ((internalErrorResult cmd fmt m).success = true ↔
      (internalErrorResult cmd fmt m).exit_code = 0) ∧
    ((internalErrorResult cmd fmt m).error ≠ none ↔
      (internalErrorResult cmd fmt m).success = false) := by
  simp [internalErrorResult]

theorem execute_result_ok_invariant (jl yl : String → Option Jv) (cp : String)
    (dt : Nat) (cmd : String) (ctx : Option CommandContext) (fmt : OutputFormat)
    (beh : ProcBehavior) (r : CommandResult)
    (h : (execute jl yl cp dt cmd ctx fmt beh).result = .ok r) :
    (r.success = true ↔ r.exit_code = 0) ∧ (r.error ≠ none ↔ r.success = false) := by
  unfold execute at h
  rcases hpc : parse_command cmd with e | ⟨c, sub, cpid, args⟩ <;> rw [hpc] at h
  · dsimp only at h
    injection h with h'
    subst h'
    exact resultInvariant_internal cmd fmt e.msg
  · dsimp only at h
    rcases hv : validate_command c sub cpid (some ((ctx.getD { request_id := "sync" }))) with e | u <;>
      rw [hv] at h
    · dsimp only at h
      injection h with h'
      subst h'
      exact resultInvariant_internal cmd fmt e.msg
    · cases beh with
      | hangs => cases h
      | raises m =>
        dsimp only at h
        injection h with h'
        subst h'
        exact resultInvariant_internal cmd fmt m
      | completes ec out err =>
        dsimp only at h
        injection h with h'
        subst h'
        by_cases hec : ec = 0 <;> simp [hec]

theorem batchItem_invariant (jl yl : String → Option Jv) (cp : String) (dt : Nat)
    (ctx : Option CommandContext) (fmt : OutputFormat) (cmd : String)
    (beh : ProcBehavior) (wait : WaitFate) :
    ((batchItem jl yl cp dt ctx fmt cmd beh wait).success = true ↔
      (batchItem jl yl cp dt ctx fmt cmd beh wait).exit_code = 0) ∧
    ((batchItem jl yl cp dt ctx fmt cmd beh wait).error ≠ none ↔
      (batchItem jl yl cp dt ctx fmt cmd beh wait).success = false) := by
  cases wait with
  | waitTimeout => simp [batchItem]
  | completed =>
    unfold batchItem
    rcases hr : (execute jl yl cp dt cmd ctx fmt beh).result with e | r
    · exact resultInvariant_internal cmd fmt e.msg
    · exact execute_result_ok_invariant jl yl cp dt cmd ctx fmt beh r hr

theorem internalErrorResult_fields (cmd : String) (fmt : OutputFormat) (m : String) :
    (internalErrorResult cmd fmt m).success = false ∧
    (internalErrorResult cmd fmt m).exit_code = -1 ∧
    (internalErrorResult cmd fmt m).error = some m := by
  simp [internalErrorResult]

theorem execute_parse_error (jl yl : String → Option Jv) (cp : String) (dt : Nat)
    (cmd : String) (ctx : Option CommandContext) (fmt : OutputFormat)
    (beh : ProcBehavior) (e : ExecErr) (hpc : parse_command cmd = .error e) :
    execute jl yl cp dt cmd ctx fmt beh =
      ⟨.ok (internalErrorResult cmd fmt e.msg), false, false⟩ := by
  unfold execute
  rw [hpc]

theorem execute_validate_error (jl yl : String → Option Jv) (cp : String) (dt : Nat)
    (cmd : String) (ctx : Option CommandContext) (fmt : OutputFormat)
    (beh : ProcBehavior) (pc : ParsedCommand) (e : ExecErr)
    (hpc : parse_command cmd = .ok pc)
    (hv : validate_command pc.1 pc.2.1 pc.2.2.1 (some (ctx.getD defaultCtx)) = .error e) :
    execute jl yl cp dt cmd ctx fmt beh =
      ⟨.ok (internalErrorResult cmd fmt e.msg), false, false⟩ := by
  obtain ⟨c, sub, cpid, args⟩ := pc
  unfold execute
  rw [hpc]
  dsimp only
  rw [show (ctx.getD { request_id := "sync" }) = ctx.getD defaultCtx from rfl]
  rw [hv]

theorem execute_happy_raises (jl yl : String → Option Jv) (cp : String) (dt : Nat)
    (cmd : String) (ctx : Option CommandContext) (fmt : OutputFormat) (m : String)
    (h : happyPath cmd ctx = true) :
    (execute jl yl cp dt cmd ctx fmt (.raises m)).result =
      .ok (internalErrorResult cmd fmt m) ∧
    (execute jl yl cp dt cmd ctx fmt (.raises m)).spawned = true := by
  unfold happyPath at h
  rcases hpc : parse_command cmd with e | pc <;> rw [hpc] at h
  · cases h
  · obtain ⟨c, sub, cpid, args⟩ := pc
    dsimp only at h
    rcases hv : validate_command c sub cpid (some (ctx.getD defaultCtx)) with e | u
    · rw [hv] at h
      cases h
    · unfold execute
      rw [hpc]
      dsimp only
      rw [show (ctx.getD { request_id := "sync" }) = ctx.getD defaultCtx from rfl, hv]
      exact ⟨rfl, rfl⟩

/-- C1: every `CommandResult` produced by `execute` or `execute_batch`
satisfies `success ↔ exit_code = 0` and `error ≠ none ↔ ¬success`; the
internal-exception conversions (parse error, validation error, any other
exception on the happy path) produce exactly `internalErrorResult`, whose
`exit_code` is `-1` and whose `error` is the exception's message. -/
theorem claim_C1 :
    (∀ (jl yl : String → Option Jv) cp dt cmd ctx fmt beh r,
      (execute jl yl cp dt cmd ctx fmt beh).result = .ok r →
      ((r.success = true ↔ r.exit_code = 0) ∧ (r.error ≠ none ↔ r.success = false))) ∧
    (∀ (jl yl : String → Option Jv) cp dt items ctx fmt r,
      r ∈ execute_batch jl yl cp dt items ctx fmt →
      ((r.success = true ↔ r.exit_code = 0) ∧ (r.error ≠ none ↔ r.success = false))) ∧
    (∀ cmd fmt m, (internalErrorResult cmd fmt m).exit_code = -1 ∧
      (internalErrorResult cmd fmt m).error = some m) ∧
    (∀ (jl yl : String → Option Jv) cp dt cmd ctx fmt beh e,
      parse_command cmd = .error e →
      (execute jl yl cp dt cmd ctx fmt beh).result =
        .ok (internalErrorResult cmd fmt e.msg)) ∧
    (∀ (jl yl : String → Option Jv) cp dt cmd ctx fmt beh pc e,
      parse_command cmd = .ok pc →
      validate_command pc.1 pc.2.1 pc.2.2.1 (some (ctx.getD defaultCtx)) = .error e →
      (execute jl yl cp dt cmd ctx fmt beh).result =
        .ok (internalErrorResult cmd fmt e.msg)) ∧
    (∀ (jl yl : String → Option Jv) cp dt cmd ctx fmt m,
      happyPath cmd ctx = true →
      (execute jl yl cp dt cmd ctx fmt (.raises m)).result =
        .ok (internalErrorResult cmd fmt m)) := by
  refine ⟨execute_result_ok_invariant, ?_, ?_, ?_, ?_, ?_⟩
  · intro jl yl cp dt items ctx fmt r hr
    rw [execute_batch, List.mem_map] at hr
    obtain ⟨it, -, rfl⟩ := hr
    exact batchItem_invariant jl yl cp dt ctx fmt it.1 it.2.1 it.2.2
  · intro cmd fmt m
    exact ⟨(internalErrorResult_fields cmd fmt m).2.1, (internalErrorResult_fields cmd fmt m).2.2⟩
  · intro jl yl cp dt cmd ctx fmt beh e hpc
    rw [execute_parse_error jl yl cp dt cmd ctx fmt beh e hpc]
  · intro jl yl cp dt cmd ctx fmt beh pc e hpc hv
    rw [execute_validate_error jl yl cp dt cmd ctx fmt beh pc e hpc hv]
  · intro jl yl cp dt cmd ctx fmt m h
    exact (execute_happy_raises jl yl cp dt cmd ctx fmt m h).1

theorem claim_C1_witness :
    ((internalErrorResult "x" .json "boom").exit_code = -1 ∧
      (internalErrorResult "x" .json "boom").error = some "boom") ∧
    (execute (fun _ => none) (fun _ => none) "api-cli" 300 "" none .json
        (.completes 0 "" "")).result =
      .ok (internalErrorResult "" .json (ExecErr.validation "Empty command").msg) ∧
    (execute (fun _ => none) (fun _ => none) "api-cli" 300
        "step-navigate to 123 x" none .json (.raises "spawn failed")).result =
      .ok (internalErrorResult "step-navigate to 123 x" .json "spawn failed") :=
  ⟨claim_C1.2.2.1 "x" .json "boom",
   claim_C1.2.2.2.1 (fun _ => none) (fun _ => none) "api-cli" 300 "" none .json
     (.completes 0 "" "") (.validation "Empty command") (by rfl),
   claim_C1.2.2.2.2.2 (fun _ => none) (fun _ => none) "api-cli" 300
     "step-navigate to 123 x" none .json "spawn failed" (by rfl)⟩

/-- C3 counterexample: at the concrete failing input `""` (empty command
string), the synchronous `execute` does not raise — it returns a
`CommandResult` (with no subprocess spawned), contradicting the claim that
parse/validate failures are raised out of `execute`. -/
theorem claim_C3_counterexample :
    (execute (fun _ => none) (fun _ => none) "api-cli" 300 "" none .json
        (.completes 0 "" "")).result =
      .ok (internalErrorResult "" .json "Empty command") ∧
    (execute (fun _ => none) (fun _ => none) "api-cli" 300 "" none .json
        (.completes 0 "" "")).spawned = false := ⟨rfl, rfl⟩

/-- C3 (amended): for every command string that fails parsing or
validation, the synchronous `execute` catches the error before any
subprocess is spawned and returns (not raises) a failed `CommandResult`
with `exit_code = -1` and the error's message. -/
theorem claim_C3 (jl yl : String → Option Jv) (cp : String) (dt : Nat)
    (cmd : String) (ctx : Option CommandContext) (fmt : OutputFormat)
    (beh : ProcBehavior) :
    (∀ e, parse_command cmd = .error e →
      (execute jl yl cp dt cmd ctx fmt beh).result =
        .ok (internalErrorResult cmd fmt e.msg) ∧
      (execute jl yl cp dt cmd ctx fmt beh).spawned = false) ∧
    (∀ pc e, parse_command cmd = .ok pc →
      validate_command pc.1 pc.2.1 pc.2.2.1 (some (ctx.getD defaultCtx)) = .error e →
      (execute jl yl cp dt cmd ctx fmt beh).result =
        .ok (internalErrorResult cmd fmt e.msg) ∧
      (execute jl yl cp dt cmd ctx fmt beh).spawned = false) := by
  constructor
  · intro e hpc
    rw [execute_parse_error jl yl cp dt cmd ctx fmt beh e hpc]
    exact ⟨rfl, rfl⟩
  · intro pc e hpc hv
    rw [execute_validate_error jl yl cp dt cmd ctx fmt beh pc e hpc hv]
    exact ⟨rfl, rfl⟩

theorem claim_C3_witness :
    ((execute (fun _ => none) (fun _ => none) "api-cli" 300 "step-interact click b"
        none .json (.completes 0 "" "")).result =
      .ok (internalErrorResult "step-interact click b" .json
        (ExecErr.validation (requiresCheckpointMsg "step-interact")).msg) ∧
    (execute (fun _ => none) (fun _ => none) "api-cli" 300 "step-interact click b"
        none .json (.completes 0 "" "")).spawned = false) :=
  (claim_C3 (fun _ => none) (fun _ => none) "api-cli" 300 "step-interact click b"
      none .json (.completes 0 "" "")).2
    ("step-interact", some "click", none, ["b"])
    (.validation (requiresCheckpointMsg "step-interact")) (by rfl) (by rfl)

/-- C5: when the subprocess never completes within the per-call timeout
(context-supplied or default), `execute` kills the process and raises the
typed timeout error instead of returning a result; a subprocess that
completes (with any exit code) always yields a returned `CommandResult`,
failed when the exit code is non-zero — never a timeout. -/
theorem claim_C5 (jl yl : String → Option Jv) (cp : String) (dt : Nat)
    (cmd : String) (ctx : Option CommandContext) (fmt : OutputFormat) :
    (happyPath cmd ctx = true →
      (execute jl yl cp dt cmd ctx fmt .hangs).result =
        .error (.timeoutErr (timeoutMessage (selectTimeout (some (ctx.getD defaultCtx)) dt))) ∧
      (execute jl yl cp dt cmd ctx fmt .hangs).killed = true) ∧
    (∀ ec out err, ∃ r,
      (execute jl yl cp dt cmd ctx fmt (.completes ec out err)).result = .ok r ∧
      (ec ≠ 0 → r.success = false)) := by
  constructor
  · intro h
    unfold happyPath at h
    rcases hpc : parse_command cmd with e | pc <;> rw [hpc] at h
    · cases h
    · obtain ⟨c, sub, cpid, args⟩ := pc
      dsimp only at h
      rcases hv : validate_command c sub cpid (some (ctx.getD defaultCtx)) with e | u
      · rw [hv] at h
        cases h
      · unfold execute
        rw [hpc]
        dsimp only
        rw [show (ctx.getD { request_id := "sync" }) = ctx.getD defaultCtx from rfl, hv]
        exact ⟨rfl, rfl⟩
  · intro ec out err
    rcases hr : (execute jl yl cp dt cmd ctx fmt (.completes ec out err)).result with e | r
    · exfalso
      unfold execute at hr
      rcases hpc : parse_command cmd with e' | pc <;> rw [hpc] at hr
      · cases hr
      · obtain ⟨c, sub, cpid, args⟩ := pc
        dsimp only at hr
        rcases hv : validate_command c sub cpid (some (ctx.getD { request_id := "sync" })) with e' | u <;>
          rw [hv] at hr
        · cases hr
        · cases hr
    · refine ⟨r, rfl, ?_⟩
      intro hec
      have hinv := execute_result_ok_invariant jl yl cp dt cmd ctx fmt (.completes ec out err) r hr
      by_cases hsucc : r.success = true
      · exfalso
        have hz := hinv.1.mp hsucc
        unfold execute at hr
        rcases hpc : parse_command cmd with e' | pc <;> rw [hpc] at hr
        · injection hr with hr'
          subst hr'
          simp [internalErrorResult] at hsucc
        · obtain ⟨c, sub, cpid, args⟩ := pc
          dsimp only at hr
          rcases hv : validate_command c sub cpid (some (ctx.getD { request_id := "sync" })) with e' | u <;>
            rw [hv] at hr
          · injection hr with hr'
            subst hr'
            simp [internalErrorResult] at hsucc
          · injection hr with hr'
            subst hr'
            simp only at hz
            exact hec hz
      · simpa using hsucc

theorem claim_C5_witness :
    ((execute (fun _ => none) (fun _ => none) "api-cli" 300 "step-navigate to 123 x"
        none .json .hangs).result =
      .error (.timeoutErr (timeoutMessage
        (selectTimeout (some ((none : Option CommandContext).getD defaultCtx)) 300))) ∧
    (execute (fun _ => none) (fun _ => none) "api-cli" 300 "step-navigate to 123 x"
        none .json .hangs).killed = true) ∧
    (∃ r, (execute (fun _ => none) (fun _ => none) "api-cli" 300 "step-navigate to 123 x"
        none .json (.completes 5 "" "no such checkpoint")).result = .ok r ∧
      ((5 : Int) ≠ 0 → r.success = false)) :=
  ⟨(claim_C5 (fun _ => none) (fun _ => none) "api-cli" 300 "step-navigate to 123 x"
      none .json).1 (by rfl),
   (claim_C5 (fun _ => none) (fun _ => none) "api-cli" 300 "step-navigate to 123 x"
      none .json).2 5 "" "no such checkpoint"⟩

/-- C6: `execute_batch` returns exactly one result per input command, in
input order (the `i`-th result is the conversion of the `i`-th item); a
batch-side wait timeout becomes the synthetic exit-8 `Timeout` result and
an exception raised by an item's `execute` becomes the synthetic exit-(-1)
result, so every item yields a result and nothing propagates. -/
theorem claim_C6 (jl yl : String → Option Jv) (cp : String) (dt : Nat)
    (items : List (String × ProcBehavior × WaitFate)) (ctx : Option CommandContext)
    (fmt : OutputFormat) :
    (execute_batch jl yl cp dt items ctx fmt).length = items.length ∧
    (∀ i : Nat, (execute_batch jl yl cp dt items ctx fmt)[i]? =
      (items[i]?).map (fun it => batchItem jl yl cp dt ctx fmt it.1 it.2.1 it.2.2)) ∧
    (∀ cmd beh, batchItem jl yl cp dt ctx fmt cmd beh .waitTimeout =
      { success := false, exit_code := 8, stdout := "", stderr := "Command timed out",
        command := [cmd], output_format := fmt, parsed_output := none,
        error := some "Timeout" }) ∧
    (∀ cmd beh e, (execute jl yl cp dt cmd ctx fmt beh).result = .error e →
      batchItem jl yl cp dt ctx fmt cmd beh .completed = internalErrorResult cmd fmt e.msg) := by
  refine ⟨by simp [execute_batch], ?_, fun cmd beh => rfl, ?_⟩
  · intro i
    simp [execute_batch]
  · intro cmd beh e h
    unfold batchItem
    rw [h]

theorem claim_C6_witness :
    batchItem (fun _ => none) (fun _ => none) "api-cli" 300 none .json
        "step-navigate to 123 x" .hangs .completed =
      internalErrorResult "step-navigate to 123 x" .json
        (ExecErr.timeoutErr (timeoutMessage 300)).msg :=
  (claim_C6 (fun _ => none) (fun _ => none) "api-cli" 300 [] none .json).2.2.2
    "step-navigate to 123 x" .hangs (.timeoutErr (timeoutMessage 300)) (by rfl)

theorem get_error_message_8_ne_Timeout (s : String) :
    get_error_message 8 s ≠ "Timeout" := by
  unfold get_error_message
  have hb : (EXIT_CODES.lookup 8).getD
      ("Unknown error (code: " ++ toString (8 : Int) ++ ")") = "Timeout error" := by decide
  rw [hb]
  by_cases h : pyStrip s ≠ ""
  · rw [if_pos h]
    intro hc
    have h2 := congrArg String.length hc
    rw [String.length_append, String.length_append] at h2
    rw [show ("Timeout error" : String).length = 13 from rfl,
      show (": " : String).length = 2 from rfl,
      show ("Timeout" : String).length = 7 from rfl] at h2
    omega
  · rw [if_neg h]
    decide

/-- C10: inside `execute_batch`, an item whose `execute` raised (in
particular the subprocess-timeout `CommandTimeoutError`) is converted by
the generic exception branch into a result with `exit_code = -1` and the
exception's message — the synthetic `(exit_code = 8, error = "Timeout")`
result arises only from the batch's own wait timing out; concretely, a
one-item batch whose subprocess hangs reports exit code `-1`, not `8`. -/
theorem claim_C10 (jl yl : String → Option Jv) (cp : String) (dt : Nat)
    (ctx : Option CommandContext) (fmt : OutputFormat) :
    (∀ cmd beh e, (execute jl yl cp dt cmd ctx fmt beh).result = .error e →
      batchItem jl yl cp dt ctx fmt cmd beh .completed = internalErrorResult cmd fmt e.msg ∧
      (batchItem jl yl cp dt ctx fmt cmd beh .completed).exit_code = -1 ∧
      (batchItem jl yl cp dt ctx fmt cmd beh .completed).error = some e.msg) ∧
    (∀ cmd beh wait,
      (batchItem jl yl cp dt ctx fmt cmd beh wait).exit_code = 8 →
      (batchItem jl yl cp dt ctx fmt cmd beh wait).error = some "Timeout" →
      wait = .waitTimeout) ∧
    (execute_batch jl yl cp dt [("step-navigate to 123 url", .hangs, .completed)] ctx fmt =
      [internalErrorResult "step-navigate to 123 url" fmt
        (timeoutMessage (selectTimeout (some (ctx.getD defaultCtx)) dt))]) := by
  refine ⟨?_, ?_, ?_⟩
  · intro cmd beh e h
    unfold batchItem
    rw [h]
    exact ⟨rfl, rfl, rfl⟩
  · intro cmd beh wait h8 hT
    cases wait with
    | waitTimeout => rfl
    | completed =>
      exfalso
      unfold batchItem at h8 hT
      rcases hr : (execute jl yl cp dt cmd ctx fmt beh).result with e | r <;>
        rw [hr] at h8 hT
      · simp [internalErrorResult] at h8
      · unfold execute at hr
        rcases hpc : parse_command cmd with e' | pc <;> rw [hpc] at hr
        · injection hr with hr'
          rw [← hr'] at h8
          simp [internalErrorResult] at h8
        · obtain ⟨c, sub, cpid, args⟩ := pc
          dsimp only at hr
          rcases hv : validate_command c sub cpid (some (ctx.getD { request_id := "sync" })) with e' | u <;>
            rw [hv] at hr
          · injection hr with hr'
            rw [← hr'] at h8
            simp [internalErrorResult] at h8
          · cases beh with
            | hangs => cases hr
            | raises m =>
              injection hr with hr'
              rw [← hr'] at h8
              simp [internalErrorResult] at h8
            | completes ec out err =>
              injection hr with hr'
              rw [← hr'] at h8 hT
              dsimp only at h8 hT
              subst h8
              rw [if_neg (by decide)] at hT
              exact get_error_message_8_ne_Timeout err (by injection hT)
  · rfl

theorem claim_C10_witness :
    (batchItem (fun _ => none) (fun _ => none) "api-cli" 300 none .json
        "step-navigate to 9 x" .hangs .completed =
      internalErrorResult "step-navigate to 9 x" .json
        (ExecErr.timeoutErr (timeoutMessage 300)).msg ∧
      (batchItem (fun _ => none) (fun _ => none) "api-cli" 300 none .json
        "step-navigate to 9 x" .hangs .completed).exit_code = -1 ∧
      (batchItem (fun _ => none) (fun _ => none) "api-cli" 300 none .json
        "step-navigate to 9 x" .hangs .completed).error =
          some (ExecErr.timeoutErr (timeoutMessage 300)).msg) ∧
    WaitFate.waitTimeout = WaitFate.waitTimeout :=
  ⟨(claim_C10 (fun _ => none) (fun _ => none) "api-cli" 300 none .json).1
      "step-navigate to 9 x" .hangs (.timeoutErr (timeoutMessage 300)) (by rfl),
   (claim_C10 (fun _ => none) (fun _ => none) "api-cli" 300 none .json).2.1
      "cmd" (.completes 0 "" "") .waitTimeout (by rfl) (by rfl)⟩

/-! ### The JSON round-trip (C8)

`parse_output` with the concrete `jsonLoads` model undoes `dumps`.  The
development works at the character-list level: per-character escape
round-trips, number round-trips via `Nat.digits`, then a fuel induction
tying `parseValue`/`parseArrItems`/`parseObjItems` to
`dumpChars`/`dumpArrRest`/`dumpObjRest`. -/

theorem hexVal_digitChar : ∀ d < 16, hexVal (Nat.digitChar d) = some d := by decide

theorem readHex4_hex4 (v : Nat) (hv : v < 65536) (rest : List Char) :
    readHex4 (hex4 v ++ rest) = some (v, rest) := by
  have h1 := hexVal_digitChar (v / 4096 % 16) (by omega)
  have h2 := hexVal_digitChar (v / 256 % 16) (by omega)
  have h3 := hexVal_digitChar (v / 16 % 16) (by omega)
  have h4 := hexVal_digitChar (v % 16) (by omega)
  simp only [hex4, List.cons_append, List.nil_append, readHex4, h1, h2, h3, h4]
  congr 1
  refine Prod.ext ?_ rfl
  simp only
  omega

theorem parseUEscape_single (v : Nat) (hv : v < 65536)
    (hval : v < 0xd800 ∨ 0xe000 ≤ v) (rest : List Char) :
    parseUEscape (hex4 v ++ rest) = some (Char.ofNat v, rest) := by
  rw [parseUEscape, readHex4_hex4 v hv rest]
  dsimp only
  rw [if_neg (by omega), if_neg (by omega)]



theorem parseUEscape_pair (v : Nat) (hlo : 0x10000 ≤ v) (hhi : v < 0x110000)
    (rest : List Char) :
    parseUEscape (hex4 (0xd800 + (v - 0x10000) / 0x400) ++
        (bsl :: 'u' :: (hex4 (0xdc00 + (v - 0x10000) % 0x400) ++ rest))) =
      some (Char.ofNat v, rest) := by
  have hhiv : 0xd800 + (v - 0x10000) / 0x400 < 65536 := by omega
  have hlov : 0xdc00 + (v - 0x10000) % 0x400 < 65536 := by
    have := Nat.mod_lt (v - 0x10000) (show 0 < 0x400 by norm_num)
    omega
  rw [parseUEscape, readHex4_hex4 _ hhiv]
  dsimp only
  rw [if_pos (by constructor <;> omega)]
  rw [if_pos ⟨rfl, rfl⟩]
  rw [readHex4_hex4 _ hlov]
  dsimp only
  rw [if_pos (by constructor <;> omega)]
  rw [show 65536 + (55296 + (v - 65536) / 1024 - 55296) * 1024 +
      (56320 + (v - 65536) % 1024 - 56320) = v from by omega]



theorem parseStrBody_uEsc (fuel : Nat) (acc cs2 tail : List Char) (ch : Char)
    (h : parseUEscape cs2 = some (ch, tail)) :
    parseStrBody (fuel + 1) acc (bsl :: 'u' :: cs2) =
      parseStrBody fuel (ch :: acc) tail := by
  rw [parseStrBody]
  rw [if_neg (by decide : ¬bsl = dq), if_pos (rfl : bsl = bsl)]
  rw [if_neg (by decide : ¬('u' : Char) = dq), if_neg (by decide : ¬('u' : Char) = bsl),
    if_neg (by decide : ¬('u' : Char) = '/'), if_neg (by decide : ¬('u' : Char) = 'b'),
    if_neg (by decide : ¬('u' : Char) = 'f'), if_neg (by decide : ¬('u' : Char) = 'n'),
    if_neg (by decide : ¬('u' : Char) = 'r'), if_neg (by decide : ¬('u' : Char) = 't'),
    if_pos (rfl : ('u' : Char) = 'u')]
  rw [h]

theorem parseStrBody_escChar (fuel : Nat) (c : Char) (acc tail : List Char) :
    parseStrBody (fuel + 1) acc (escChar c ++ tail) =
      parseStrBody fuel (c :: acc) tail := by
  by_cases h1 : c = dq
  · subst h1
    simp [escChar, parseStrBody, dq, bsl]
  by_cases h2 : c = bsl
  · subst h2
    simp [escChar, parseStrBody, dq, bsl]
  by_cases h3 : c = '\x08'
  · subst h3
    simp [escChar, parseStrBody, dq, bsl]
  by_cases h4 : c = '\x0c'
  · subst h4
    simp [escChar, parseStrBody, dq, bsl]
  by_cases h5 : c = '\n'
  · subst h5
    simp [escChar, parseStrBody, dq, bsl]
  by_cases h6 : c = '\r'
  · subst h6
    simp [escChar, parseStrBody, dq, bsl]
  by_cases h7 : c = '\t'
  · subst h7
    simp [escChar, parseStrBody, dq, bsl]
  by_cases h8 : c.toNat < 0x20 ∨ c.toNat ≥ 0x7f
  · rw [show escChar c = (if c.toNat < 0x10000 then bsl :: 'u' :: hex4 c.toNat
        else (bsl :: 'u' :: hex4 (0xd800 + (c.toNat - 0x10000) / 0x400)) ++
          (bsl :: 'u' :: hex4 (0xdc00 + (c.toNat - 0x10000) % 0x400))) from by
      simp [escChar, h1, h2, h3, h4, h5, h6, h7, h8]]
    have hvalid : c.toNat < 0xd800 ∨ (0xe000 ≤ c.toNat ∧ c.toNat < 0x110000) := by
      have hv := c.valid
      rcases hv with h | ⟨hl, hr⟩
      · left
        exact h
      · right
        exact ⟨hl, hr⟩
    by_cases h9 : c.toNat < 0x10000
    · rw [if_pos h9]
      rw [show (bsl :: 'u' :: hex4 c.toNat) ++ tail = bsl :: 'u' :: (hex4 c.toNat ++ tail) from rfl]
      rw [parseStrBody_uEsc fuel acc _ tail c
        (by rw [parseUEscape_single c.toNat h9 (by omega) tail, Char.ofNat_toNat])]
    · rw [if_neg h9]
      rw [show ((bsl :: 'u' :: hex4 (0xd800 + (c.toNat - 0x10000) / 0x400)) ++
          (bsl :: 'u' :: hex4 (0xdc00 + (c.toNat - 0x10000) % 0x400))) ++ tail =
          bsl :: 'u' :: (hex4 (0xd800 + (c.toNat - 0x10000) / 0x400) ++
            (bsl :: 'u' :: (hex4 (0xdc00 + (c.toNat - 0x10000) % 0x400) ++ tail))) from by
        simp]
      rw [parseStrBody_uEsc fuel acc _ tail c
        (by rw [parseUEscape_pair c.toNat (by omega) (by omega) tail, Char.ofNat_toNat])]
  · have hlit : escChar c = [c] := by
      simp [escChar, h1, h2, h3, h4, h5, h6, h7, h8]
    rw [hlit]
    rw [show [c] ++ tail = c :: tail from rfl]
    rw [parseStrBody.eq_def]
    dsimp only
    rw [if_neg h1, if_neg h2, if_neg (by omega : ¬c.toNat < 0x20)]

theorem escChar_length_pos (c : Char) : 1 ≤ (escChar c).length := by
  unfold escChar
  split_ifs <;> simp [hex4]

theorem escList_length (cs : List Char) : cs.length ≤ (escList cs).length := by
  induction cs with
  | nil => simp [escList]
  | cons c cs ih =>
    have := escChar_length_pos c
    simp only [escList, List.length_append, List.length_cons]
    omega

theorem parseStrBody_escList (cs : List Char) : ∀ (fuel : Nat) (acc rest : List Char),
    cs.length < fuel →
    parseStrBody fuel acc (escList cs ++ (dq :: rest)) =
      some (String.mk (acc.reverse ++ cs), rest) := by
  induction cs with
  | nil =>
    intro fuel acc rest hf
    cases fuel with
    | zero => omega
    | succ f =>
      rw [show escList [] ++ (dq :: rest) = dq :: rest from rfl]
      rw [parseStrBody.eq_def]
      dsimp only
      rw [if_pos rfl]
      simp
  | cons c cs ih =>
    intro fuel acc rest hf
    cases fuel with
    | zero => omega
    | succ f =>
      rw [show escList (c :: cs) ++ (dq :: rest) =
        escChar c ++ (escList cs ++ (dq :: rest)) from by simp [escList]]
      rw [parseStrBody_escChar f c acc (escList cs ++ (dq :: rest))]
      rw [ih f (c :: acc) rest (by simpa using Nat.lt_of_succ_lt_succ hf)]
      simp

theorem parseStrBody_strLit (s : String) (rest : List Char) :
    parseStrBody ((escList s.data ++ (dq :: rest)).length + 1) []
      (escList s.data ++ (dq :: rest)) = some (s, rest) := by
  have h := parseStrBody_escList s.data ((escList s.data ++ (dq :: rest)).length + 1) [] rest
    (by
      have h1 := escList_length s.data
      simp only [List.length_append, List.length_cons]
      omega)
  rw [h]
  simp

theorem digitChar_isDigit : ∀ d < 10, (Nat.digitChar d).isDigit = true := by decide

theorem digitChar_digitVal : ∀ d < 10, digitVal (Nat.digitChar d) = d := by decide

theorem digitChar_ne_dash : ∀ d < 10, Nat.digitChar d ≠ '-' := by decide

theorem digitChar_ne_zero : ∀ d < 10, d ≠ 0 → Nat.digitChar d ≠ '0' := by decide

theorem parseDigitsAux_map (ds : List Nat) : ∀ (acc : Nat) (rest : List Char),
    (∀ d ∈ ds, d < 10) → notDigitHead rest →
    parseDigitsAux acc (ds.map Nat.digitChar ++ rest) =
      (ds.foldl (fun a d => a * 10 + d) acc, rest) := by
  induction ds with
  | nil =>
    intro acc rest hds hrest
    cases rest with
    | nil => rfl
    | cons c cs =>
      simp only [List.map_nil, List.nil_append, List.foldl_nil, parseDigitsAux]
      rw [if_neg (by simp [notDigitHead] at hrest; simp [hrest])]
  | cons d ds ih =>
    intro acc rest hds hrest
    have hd : d < 10 := hds d (by simp)
    simp only [List.map_cons, List.cons_append, parseDigitsAux, List.foldl_cons]
    rw [if_pos (digitChar_isDigit d hd), digitChar_digitVal d hd]
    exact ih (acc * 10 + d) rest (fun x hx => hds x (by simp [hx])) hrest

theorem foldl_reverse_digits (ds : List Nat) : ∀ acc : Nat,
    ds.reverse.foldl (fun a d => a * 10 + d) acc =
      acc * 10 ^ ds.length + Nat.ofDigits 10 ds := by
  induction ds with
  | nil => simp [Nat.ofDigits_nil]
  | cons d ds ih =>
    intro acc
    rw [List.reverse_cons, List.foldl_append, ih acc]
    simp only [List.foldl_cons, List.foldl_nil, Nat.ofDigits_cons, List.length_cons]
    ring

theorem natChars_core (n : Nat) (hn : n ≠ 0) :
    ∃ c cs, natChars n = c :: cs ∧ c ≠ '-' ∧ c ≠ '0' ∧ c.isDigit = true ∧
      ∀ rest, notDigitHead rest →
        parseDigitsAux (digitVal c) (cs ++ rest) = (n, rest) := by
  have hne : Nat.digits 10 n ≠ [] := Nat.digits_ne_nil_iff_ne_zero.mpr hn
  have hrevne : (Nat.digits 10 n).reverse ≠ [] := by simpa using hne
  obtain ⟨d, ds, hrev⟩ := List.exists_cons_of_ne_nil hrevne
  have hmem : ∀ x ∈ (Nat.digits 10 n).reverse, x < 10 := by
    intro x hx
    exact Nat.digits_lt_base (by norm_num) (List.mem_reverse.mp hx)
  have hd10 : d < 10 := hmem d (by rw [hrev]; simp)
  have hdne : d ≠ 0 := by
    have hlast := Nat.getLast_digit_ne_zero 10 hn
    rw [List.getLast_eq_head_reverse] at hlast
    simp only [hrev, List.head_cons] at hlast
    exact hlast
  refine ⟨Nat.digitChar d, ds.map Nat.digitChar, ?_, digitChar_ne_dash d hd10,
    digitChar_ne_zero d hd10 hdne, digitChar_isDigit d hd10, ?_⟩
  · unfold natChars
    rw [if_neg hn, ← List.map_reverse, hrev, List.map_cons]
  · intro rest hrest
    have hds : ∀ x ∈ ds, x < 10 := by
      intro x hx
      exact hmem x (by rw [hrev]; simp [hx])
    rw [digitChar_digitVal d hd10]
    rw [parseDigitsAux_map ds d rest hds hrest]
    have hfold := foldl_reverse_digits (Nat.digits 10 n) 0
    rw [hrev] at hfold
    simp only [List.foldl_cons, Nat.zero_mul, Nat.zero_add, Nat.ofDigits_digits] at hfold
    rw [hfold]

theorem parseNumberInt_natChars (n : Nat) (rest : List Char) (hrest : notDigitHead rest) :
    parseNumberInt (natChars n ++ rest) = some ((n : Int), rest) := by
  by_cases hn : n = 0
  · subst hn
    rw [show natChars 0 = ['0'] from rfl]
    simp [parseNumberInt]
  · obtain ⟨c, cs, hnat, hdash, hzero, hdigit, hparse⟩ := natChars_core n hn
    rw [hnat]
    simp only [List.cons_append, parseNumberInt]
    rw [if_neg hdash, if_neg hzero, if_pos hdigit]
    rw [hparse rest hrest]

theorem parseNumberInt_intChars (n : Int) (rest : List Char) (hrest : notDigitHead rest) :
    parseNumberInt (intChars n ++ rest) = some (n, rest) := by
  by_cases hneg : n < 0
  · rw [show intChars n = '-' :: natChars n.natAbs from by
      unfold intChars
      rw [if_pos hneg]]
    have hab : n.natAbs ≠ 0 := by omega
    obtain ⟨c, cs, hnat, hdash, hzero, hdigit, hparse⟩ := natChars_core n.natAbs hab
    simp only [List.cons_append, parseNumberInt, if_true]
    rw [hnat]
    simp only [List.cons_append]
    rw [if_neg hzero, if_pos hdigit]
    rw [hparse rest hrest]
    have : -((n.natAbs : Nat) : Int) = n := by omega
    rw [this]
  · rw [show intChars n = natChars n.toNat from by
      unfold intChars
      rw [if_neg hneg]]
    rw [parseNumberInt_natChars n.toNat rest hrest]
    have : ((n.toNat : Nat) : Int) = n := by omega
    rw [this]


theorem digitChar_dispatch : ∀ d < 10, jsonWsChar (Nat.digitChar d) = false ∧
    Nat.digitChar d ≠ 'n' ∧ Nat.digitChar d ≠ 't' ∧ Nat.digitChar d ≠ 'f' ∧
    Nat.digitChar d ≠ dq ∧ Nat.digitChar d ≠ lbrackC ∧ Nat.digitChar d ≠ lbraceC ∧
    Nat.digitChar d ≠ rbrackC ∧ Nat.digitChar d ≠ rbraceC := by decide

theorem natChars_head (n : Nat) :
    ∃ d cs, d < 10 ∧ natChars n = Nat.digitChar d :: cs := by
  by_cases hn : n = 0
  · subst hn
    exact ⟨0, [], by norm_num, rfl⟩
  · have hne : Nat.digits 10 n ≠ [] := Nat.digits_ne_nil_iff_ne_zero.mpr hn
    have hrevne : (Nat.digits 10 n).reverse ≠ [] := by simpa using hne
    obtain ⟨d, ds, hrev⟩ := List.exists_cons_of_ne_nil hrevne
    have hd10 : d < 10 :=
      Nat.digits_lt_base (by norm_num) (List.mem_reverse.mp (by rw [hrev]; simp))
    refine ⟨d, ds.map Nat.digitChar, hd10, ?_⟩
    unfold natChars
    rw [if_neg hn, ← List.map_reverse, hrev, List.map_cons]

theorem intChars_head (n : Int) : ∃ c cs, intChars n = c :: cs ∧
    (c = '-' ∨ ∃ d, d < 10 ∧ c = Nat.digitChar d) := by
  by_cases hneg : n < 0
  · refine ⟨'-', natChars n.natAbs, ?_, Or.inl rfl⟩
    unfold intChars
    rw [if_pos hneg]
  · obtain ⟨d, cs, hd10, hnat⟩ := natChars_head n.toNat
    refine ⟨Nat.digitChar d, cs, ?_, Or.inr ⟨d, hd10, rfl⟩⟩
    unfold intChars
    rw [if_neg hneg, hnat]

theorem dump_head (v : Jv) : ∃ c cs, dumpChars v = c :: cs ∧ jsonWsChar c = false ∧
    c ≠ rbrackC ∧ c ≠ rbraceC := by
  have ok : ∀ c ∈ ['n', 't', 'f', dq, lbrackC, lbraceC],
      jsonWsChar c = false ∧ c ≠ rbrackC ∧ c ≠ rbraceC := by decide
  cases v with
  | null => exact ⟨'n', _, rfl, ok 'n' (by decide)⟩
  | bool b =>
    cases b with
    | true => exact ⟨'t', _, rfl, ok 't' (by decide)⟩
    | false => exact ⟨'f', _, rfl, ok 'f' (by decide)⟩
  | int n =>
    obtain ⟨c, cs, hic, hc⟩ := intChars_head n
    refine ⟨c, cs, by rw [dumpChars, hic], ?_, ?_, ?_⟩ <;>
      rcases hc with rfl | ⟨d, hd10, rfl⟩
    · decide
    · exact (digitChar_dispatch d hd10).1
    · decide
    · exact (digitChar_dispatch d hd10).2.2.2.2.2.2.2.1
    · decide
    · exact (digitChar_dispatch d hd10).2.2.2.2.2.2.2.2
  | str s => exact ⟨dq, _, rfl, ok dq (by decide)⟩
  | arr xs =>
    cases xs with
    | nil => exact ⟨lbrackC, _, rfl, ok lbrackC (by decide)⟩
    | cons x xs =>
      exact ⟨lbrackC, (dumpChars x ++ dumpArrRest xs) ++ [rbrackC], rfl,
        ok lbrackC (by decide)⟩
  | obj kvs =>
    cases kvs with
    | nil => exact ⟨lbraceC, _, rfl, ok lbraceC (by decide)⟩
    | cons kv kvs =>
      exact ⟨lbraceC, (dumpEntryChars kv ++ dumpObjRest kvs) ++ [rbraceC], rfl,
        ok lbraceC (by decide)⟩

theorem dump_length_pos (v : Jv) : 1 ≤ (dumpChars v).length := by
  obtain ⟨c, cs, h, -⟩ := dump_head v
  rw [h]
  simp

theorem skipWs_dump (v : Jv) (rest : List Char) :
    skipWs (dumpChars v ++ rest) = dumpChars v ++ rest := by
  obtain ⟨c, cs, h, hws, -⟩ := dump_head v
  rw [h]
  simp [skipWs, hws]

theorem skipWs_space (cs : List Char) : skipWs (' ' :: cs) = skipWs cs := by
  simp [skipWs, jsonWsChar]

theorem parseValue_ws (fuel : Nat) (cs : List Char) :
    parseValue fuel (' ' :: cs) = parseValue fuel cs := by
  cases fuel with
  | zero => rfl
  | succ f =>
    conv_lhs => rw [parseValue.eq_def]
    conv_rhs => rw [parseValue.eq_def]
    dsimp only
    rw [skipWs_space]

theorem parseArrItems_ws (fuel : Nat) (cs : List Char) :
    parseArrItems fuel (' ' :: cs) = parseArrItems fuel cs := by
  cases fuel with
  | zero => rfl
  | succ f =>
    conv_lhs => rw [parseArrItems.eq_def]
    conv_rhs => rw [parseArrItems.eq_def]
    dsimp only
    rw [parseValue_ws]

theorem parseObjItems_ws (fuel : Nat) (cs : List Char) :
    parseObjItems fuel (' ' :: cs) = parseObjItems fuel cs := by
  cases fuel with
  | zero => rfl
  | succ f =>
    conv_lhs => rw [parseObjItems.eq_def]
    conv_rhs => rw [parseObjItems.eq_def]
    dsimp only
    rw [skipWs_space]

theorem parseValue_null (f : Nat) (rest : List Char) :
    parseValue (f + 1) (dumpChars .null ++ rest) = some (.null, rest) := by
  simp [dumpChars, nullChars, parseValue, skipWs, jsonWsChar]

theorem parseValue_true (f : Nat) (rest : List Char) :
    parseValue (f + 1) (dumpChars (.bool true) ++ rest) = some (.bool true, rest) := by
  simp [dumpChars, trueChars, parseValue, skipWs, jsonWsChar]

theorem parseValue_false (f : Nat) (rest : List Char) :
    parseValue (f + 1) (dumpChars (.bool false) ++ rest) = some (.bool false, rest) := by
  simp [dumpChars, falseChars, parseValue, skipWs, jsonWsChar]

theorem parseValue_int (f : Nat) (n : Int) (rest : List Char) (hrest : notDigitHead rest) :
    parseValue (f + 1) (dumpChars (.int n) ++ rest) = some (.int n, rest) := by
  obtain ⟨c, cs, hic, hc⟩ := intChars_head n
  have hfacts : jsonWsChar c = false ∧ c ≠ 'n' ∧ c ≠ 't' ∧ c ≠ 'f' ∧ c ≠ dq ∧
      c ≠ lbrackC ∧ c ≠ lbraceC ∧ (c = '-' ∨ c.isDigit = true) := by
    rcases hc with rfl | ⟨d, hd10, rfl⟩
    · exact ⟨by decide, by decide, by decide, by decide, by decide, by decide,
        by decide, Or.inl rfl⟩
    · obtain ⟨h1, h2, h3, h4, h5, h6, h7, -⟩ := digitChar_dispatch d hd10
      exact ⟨h1, h2, h3, h4, h5, h6, h7, Or.inr (digitChar_isDigit d hd10)⟩
  obtain ⟨hws, hn', ht', hf', hdq', hlb', hlB', hnum⟩ := hfacts
  rw [show dumpChars (.int n) = intChars n from rfl, hic]
  rw [parseValue.eq_def]
  dsimp only
  rw [List.cons_append]
  rw [show skipWs (c :: (cs ++ rest)) = c :: (cs ++ rest) from by simp [skipWs, hws]]
  dsimp only
  rw [if_neg hn', if_neg ht', if_neg hf', if_neg hdq', if_neg hlb', if_neg hlB']
  rw [if_pos (by
    rcases hnum with rfl | h
    · simp
    · simp [h])]
  rw [show c :: (cs ++ rest) = (c :: cs) ++ rest from rfl, ← hic]
  rw [parseNumberInt_intChars n rest hrest]

theorem parseValue_str (f : Nat) (s : String) (rest : List Char) :
    parseValue (f + 1) (dumpChars (.str s) ++ rest) = some (.str s, rest) := by
  rw [show dumpChars (.str s) ++ rest = dq :: (escList s.data ++ (dq :: rest)) from by
    simp [dumpChars, strLitChars]]
  rw [parseValue.eq_def]
  dsimp only
  rw [show skipWs (dq :: (escList s.data ++ (dq :: rest))) =
    dq :: (escList s.data ++ (dq :: rest)) from by simp [skipWs, jsonWsChar, dq]]
  dsimp only
  rw [if_neg (by decide : ¬dq = 'n'), if_neg (by decide : ¬dq = 't'),
    if_neg (by decide : ¬dq = 'f'), if_pos (rfl : dq = dq)]
  rw [parseStrBody_strLit s rest]

theorem skipWs_head (c : Char) (cs : List Char) (h : jsonWsChar c = false) :
    skipWs (c :: cs) = c :: cs := by
  simp [skipWs, h]

theorem parseValue_arrNil (f : Nat) (rest : List Char) :
    parseValue (f + 1) (dumpChars (.arr []) ++ rest) = some (.arr [], rest) := by
  simp [dumpChars, parseValue, skipWs, jsonWsChar, dq, lbrackC, lbraceC, rbrackC]

theorem parseValue_objNil (f : Nat) (rest : List Char) :
    parseValue (f + 1) (dumpChars (.obj []) ++ rest) = some (.obj [], rest) := by
  simp [dumpChars, parseValue, skipWs, jsonWsChar, dq, lbrackC, lbraceC, rbraceC]

theorem parseValue_arrCons (f : Nat) (x : Jv) (xs : List Jv) (rest : List Char)
    (hIA : parseArrItems f (dumpChars x ++ (dumpArrRest xs ++ (rbrackC :: rest))) =
      some (x :: xs, rest)) :
    parseValue (f + 1) (dumpChars (.arr (x :: xs)) ++ rest) = some (.arr (x :: xs), rest) := by
  rw [show dumpChars (.arr (x :: xs)) ++ rest =
      lbrackC :: (dumpChars x ++ (dumpArrRest xs ++ (rbrackC :: rest))) from by
    simp [dumpChars]]
  rw [parseValue.eq_def]
  dsimp only
  rw [skipWs_head _ _ (by decide)]
  dsimp only
  rw [if_neg (by decide : ¬lbrackC = 'n'), if_neg (by decide : ¬lbrackC = 't'),
    if_neg (by decide : ¬lbrackC = 'f'), if_neg (by decide : ¬lbrackC = dq),
    if_pos (rfl : lbrackC = lbrackC)]
  rw [skipWs_dump x (dumpArrRest xs ++ (rbrackC :: rest))]
  obtain ⟨c2, cs2, hd, hws2, hnb, -⟩ := dump_head x
  rw [hd, List.cons_append]
  dsimp only
  rw [if_neg hnb]
  rw [← List.cons_append, ← hd]
  rw [hIA]

theorem dumpEntry_shape (k : String) (v : Jv) (tail : List Char) :
    dumpEntryChars (k, v) ++ tail =
      dq :: (escList k.data ++ (dq :: (':' :: ' ' :: (dumpChars v ++ tail)))) := by
  simp [dumpEntryChars, strLitChars]

theorem parseValue_objCons (f : Nat) (kv : String × Jv) (kvs : List (String × Jv))
    (rest : List Char)
    (hObj : parseObjItems f (dumpEntryChars kv ++ (dumpObjRest kvs ++ (rbraceC :: rest))) =
      some (kv :: kvs, rest)) :
    parseValue (f + 1) (dumpChars (.obj (kv :: kvs)) ++ rest) = some (.obj (kv :: kvs), rest) := by
  obtain ⟨k, v⟩ := kv
  rw [show dumpChars (.obj ((k, v) :: kvs)) ++ rest =
      lbraceC :: (dumpEntryChars (k, v) ++ (dumpObjRest kvs ++ (rbraceC :: rest))) from by
    simp [dumpChars]]
  rw [parseValue.eq_def]
  dsimp only
  rw [skipWs_head _ _ (by decide)]
  dsimp only
  rw [if_neg (by decide : ¬lbraceC = 'n'), if_neg (by decide : ¬lbraceC = 't'),
    if_neg (by decide : ¬lbraceC = 'f'), if_neg (by decide : ¬lbraceC = dq),
    if_neg (by decide : ¬lbraceC = lbrackC), if_pos (rfl : lbraceC = lbraceC)]
  rw [dumpEntry_shape k v (dumpObjRest kvs ++ (rbraceC :: rest))]
  rw [skipWs_head _ _ (by decide)]
  dsimp only
  rw [if_neg (by decide : ¬dq = rbraceC)]
  rw [← dumpEntry_shape k v (dumpObjRest kvs ++ (rbraceC :: rest))]
  rw [hObj]

theorem notDigitHead_arrRest (xs : List Jv) (rest : List Char) :
    notDigitHead (dumpArrRest xs ++ (rbrackC :: rest)) := by
  cases xs with
  | nil => exact (by decide : rbrackC.isDigit = false)
  | cons y ys =>
    rw [show dumpArrRest (y :: ys) ++ (rbrackC :: rest) =
        ',' :: (' ' :: ((dumpChars y ++ dumpArrRest ys) ++ (rbrackC :: rest))) from by
      simp [dumpArrRest]]
    exact (by decide : (',' : Char).isDigit = false)

theorem notDigitHead_objRest (kvs : List (String × Jv)) (rest : List Char) :
    notDigitHead (dumpObjRest kvs ++ (rbraceC :: rest)) := by
  cases kvs with
  | nil => exact (by decide : rbraceC.isDigit = false)
  | cons kv2 kvs2 =>
    rw [show dumpObjRest (kv2 :: kvs2) ++ (rbraceC :: rest) =
        ',' :: (' ' :: ((dumpEntryChars kv2 ++ dumpObjRest kvs2) ++ (rbraceC :: rest))) from by
      simp [dumpObjRest]]
    exact (by decide : (',' : Char).isDigit = false)

theorem arrItems_step (f : Nat) (x : Jv) (xs : List Jv) (rest : List Char)
    (hV : parseValue f (dumpChars x ++ (dumpArrRest xs ++ (rbrackC :: rest))) =
      some (x, dumpArrRest xs ++ (rbrackC :: rest)))
    (hRec : ∀ y ys, xs = y :: ys →
      parseArrItems f (dumpChars y ++ (dumpArrRest ys ++ (rbrackC :: rest))) =
        some (y :: ys, rest)) :
    parseArrItems (f + 1) (dumpChars x ++ (dumpArrRest xs ++ (rbrackC :: rest))) =
      some (x :: xs, rest) := by
  rw [parseArrItems.eq_def]
  dsimp only
  rw [hV]
  dsimp only
  cases xs with
  | nil =>
    rw [show dumpArrRest [] ++ (rbrackC :: rest) = rbrackC :: rest from rfl]
    rw [skipWs_head _ _ (by decide)]
    dsimp only
    rw [if_pos rfl]
  | cons y ys =>
    rw [show dumpArrRest (y :: ys) ++ (rbrackC :: rest) =
        ',' :: (' ' :: (dumpChars y ++ (dumpArrRest ys ++ (rbrackC :: rest)))) from by
      simp [dumpArrRest]]
    rw [skipWs_head _ _ (by decide)]
    dsimp only
    rw [if_neg (by decide : ¬(',' : Char) = rbrackC), if_pos rfl]
    rw [parseArrItems_ws]
    rw [hRec y ys rfl]

theorem objItems_step (f : Nat) (k : String) (v : Jv) (kvs : List (String × Jv))
    (rest : List Char)
    (hV : parseValue f (dumpChars v ++ (dumpObjRest kvs ++ (rbraceC :: rest))) =
      some (v, dumpObjRest kvs ++ (rbraceC :: rest)))
    (hRec : ∀ kv2 kvs2, kvs = kv2 :: kvs2 →
      parseObjItems f (dumpEntryChars kv2 ++ (dumpObjRest kvs2 ++ (rbraceC :: rest))) =
        some (kv2 :: kvs2, rest)) :
    parseObjItems (f + 1) (dumpEntryChars (k, v) ++ (dumpObjRest kvs ++ (rbraceC :: rest))) =
      some ((k, v) :: kvs, rest) := by
  rw [dumpEntry_shape k v (dumpObjRest kvs ++ (rbraceC :: rest))]
  rw [parseObjItems.eq_def]
  dsimp only
  rw [skipWs_head _ _ (by decide)]
  dsimp only
  rw [if_pos rfl]
  rw [parseStrBody_strLit k (':' :: ' ' :: (dumpChars v ++ (dumpObjRest kvs ++ (rbraceC :: rest))))]
  dsimp only
  rw [skipWs_head _ _ (by decide : jsonWsChar ':' = false)]
  dsimp only
  rw [if_pos rfl]
  rw [parseValue_ws]
  rw [hV]
  dsimp only
  cases kvs with
  | nil =>
    rw [show dumpObjRest [] ++ (rbraceC :: rest) = rbraceC :: rest from rfl]
    rw [skipWs_head _ _ (by decide)]
    dsimp only
    rw [if_pos rfl]
  | cons kv2 kvs2 =>
    rw [show dumpObjRest (kv2 :: kvs2) ++ (rbraceC :: rest) =
        ',' :: (' ' :: (dumpEntryChars kv2 ++ (dumpObjRest kvs2 ++ (rbraceC :: rest)))) from by
      simp [dumpObjRest]]
    rw [skipWs_head _ _ (by decide)]
    dsimp only
    rw [if_neg (by decide : ¬(',' : Char) = rbraceC), if_pos rfl]
    rw [parseObjItems_ws]
    rw [hRec kv2 kvs2 rfl]

theorem length_dump_arrCons (x : Jv) (xs : List Jv) :
    (dumpChars (.arr (x :: xs))).length =
      (dumpChars x).length + (dumpArrRest xs).length + 2 := by
  simp only [dumpChars, List.length_append, List.length_cons, List.length_nil]

theorem length_dump_objCons (kv : String × Jv) (kvs : List (String × Jv)) :
    (dumpChars (.obj (kv :: kvs))).length =
      (dumpEntryChars kv).length + (dumpObjRest kvs).length + 2 := by
  simp only [dumpChars, List.length_append, List.length_cons, List.length_nil]

theorem length_arrRest_cons (y : Jv) (ys : List Jv) :
    (dumpArrRest (y :: ys)).length = 2 + (dumpChars y).length + (dumpArrRest ys).length := by
  simp only [dumpArrRest, List.length_append, List.length_cons]
  omega

theorem length_objRest_cons (kv2 : String × Jv) (kvs2 : List (String × Jv)) :
    (dumpObjRest (kv2 :: kvs2)).length =
      2 + (dumpEntryChars kv2).length + (dumpObjRest kvs2).length := by
  simp only [dumpObjRest, List.length_append, List.length_cons]
  omega

theorem length_entry (k : String) (v : Jv) :
    (dumpEntryChars (k, v)).length = (strLitChars k).length + 2 + (dumpChars v).length := by
  simp only [dumpEntryChars, List.length_append, List.length_cons]
  omega

theorem length_strLit_ge (k : String) : 2 ≤ (strLitChars k).length := by
  simp only [strLitChars, List.length_cons, List.length_append, List.length_nil]
  omega

theorem entry_length_pos (kv : String × Jv) : 1 ≤ (dumpEntryChars kv).length := by
  obtain ⟨k, v⟩ := kv
  have := length_strLit_ge k
  rw [length_entry]
  omega

theorem json_roundtrip (fuel : Nat) :
    (∀ v rest, (dumpChars v).length ≤ fuel → notDigitHead rest →
      parseValue fuel (dumpChars v ++ rest) = some (v, rest)) ∧
    (∀ x xs rest, (dumpChars x).length + (dumpArrRest xs).length + 1 ≤ fuel →
      parseArrItems fuel (dumpChars x ++ (dumpArrRest xs ++ (rbrackC :: rest))) =
        some (x :: xs, rest)) ∧
    (∀ kv kvs rest, (dumpEntryChars kv).length + (dumpObjRest kvs).length + 1 ≤ fuel →
      parseObjItems fuel (dumpEntryChars kv ++ (dumpObjRest kvs ++ (rbraceC :: rest))) =
        some (kv :: kvs, rest)) := by
  induction fuel with
  | zero =>
    refine ⟨?_, ?_, ?_⟩
    · intro v rest hlen _
      have := dump_length_pos v
      omega
    · intro x xs rest hlen
      omega
    · intro kv kvs rest hlen
      omega
  | succ f ih =>
    obtain ⟨ihV, ihA, ihO⟩ := ih
    refine ⟨?_, ?_, ?_⟩
    · intro v rest hlen hrest
      cases v with
      | null => exact parseValue_null f rest
      | bool b =>
        cases b with
        | true => exact parseValue_true f rest
        | false => exact parseValue_false f rest
      | int n => exact parseValue_int f n rest hrest
      | str s => exact parseValue_str f s rest
      | arr xs =>
        cases xs with
        | nil => exact parseValue_arrNil f rest
        | cons x xs =>
          refine parseValue_arrCons f x xs rest (ihA x xs rest ?_)
          have h := length_dump_arrCons x xs
          omega
      | obj kvs =>
        cases kvs with
        | nil => exact parseValue_objNil f rest
        | cons kv kvs =>
          refine parseValue_objCons f kv kvs rest (ihO kv kvs rest ?_)
          have h := length_dump_objCons kv kvs
          omega
    · intro x xs rest hlen
      refine arrItems_step f x xs rest ?_ ?_
      · exact ihV x _ (by omega) (notDigitHead_arrRest xs rest)
      · intro y ys hxs
        subst hxs
        refine ihA y ys rest ?_
        have hx := dump_length_pos x
        have h := length_arrRest_cons y ys
        omega
    · intro kv kvs rest hlen
      obtain ⟨k, v⟩ := kv
      refine objItems_step f k v kvs rest ?_ ?_
      · refine ihV v _ ?_ (notDigitHead_objRest kvs rest)
        have h1 := length_entry k v
        have h2 := length_strLit_ge k
        omega
      · intro kv2 kvs2 hkvs
        subst hkvs
        refine ihO kv2 kvs2 rest ?_
        have h1 := length_entry k v
        have h2 := length_strLit_ge k
        have h3 := length_objRest_cons kv2 kvs2
        omega

theorem jsonLoads_dumps (v : Jv) : jsonLoads (dumps v) = some v := by
  unfold jsonLoads
  rw [show (dumps v).data = dumpChars v from rfl]
  have h := (json_roundtrip ((dumpChars v).length + 1)).1 v [] (by omega) trivial
  rw [List.append_nil] at h
  rw [h]
  rfl

theorem dumps_obj_shape (kvs : List (String × Jv)) :
    ∃ mid, dumpChars (.obj kvs) = lbraceC :: (mid ++ [rbraceC]) := by
  cases kvs with
  | nil => exact ⟨[], rfl⟩
  | cons kv kvs => exact ⟨dumpEntryChars kv ++ dumpObjRest kvs, rfl⟩

theorem pyStrip_mk_of_ends (c d : Char) (mid : List Char)
    (hc : pyIsSpace c = false) (hd : pyIsSpace d = false) :
    pyStrip (String.mk (c :: (mid ++ [d]))) = String.mk (c :: (mid ++ [d])) := by
  unfold pyStrip
  rw [show (String.mk (c :: (mid ++ [d]))).data = c :: (mid ++ [d]) from rfl]
  have h1 : (c :: (mid ++ [d])).dropWhile pyIsSpace = c :: (mid ++ [d]) := by
    rw [List.dropWhile_cons, hc]
    simp
  have h2 : (c :: (mid ++ [d])).reverse = d :: (mid.reverse ++ [c]) := by
    simp
  have h3 : (d :: (mid.reverse ++ [c])).dropWhile pyIsSpace = d :: (mid.reverse ++ [c]) := by
    rw [List.dropWhile_cons, hd]
    simp
  rw [h1, h2, h3]
  congr 1
  simp

theorem pyStrip_dumps_obj (kvs : List (String × Jv)) :
    pyStrip (dumps (.obj kvs)) ≠ "" := by
  obtain ⟨mid, h⟩ := dumps_obj_shape kvs
  unfold dumps
  rw [h, pyStrip_mk_of_ends lbraceC rbraceC mid (by decide) (by decide)]
  intro hcon
  have := congrArg String.data hcon
  simp at this

/-- C8: round-trip — for every dict (modelled as a key-value list over the
float-free JSON fragment), parsing the `json.dumps` serialization with the
output parser in JSON format returns the dict itself. -/
theorem claim_C8 (kvs : List (String × Jv)) (yl : String → Option Jv) :
    parse_output jsonLoads yl (dumps (.obj kvs)) .json = some (.obj kvs) := by
  unfold parse_output
  rw [if_neg (pyStrip_dumps_obj kvs)]
  dsimp only
  rw [jsonLoads_dumps (.obj kvs)]
